import Mathlib

/-!
Verification development for the workflow-toolkit Formula Resolver Core.

The definitions below are a shallow embedding of the JavaScript sources of
the repository (`packages/formula-engine/src`): the tokenizer, parser,
evaluator, column-value extractor and the recursive resolver together with
its session cache.  Each definition mirrors the function of the same name in
the source; modelling decisions for JavaScript builtins (`Number`,
`parseFloat`, `parseInt`, number printing) are documented on the
corresponding helper.  Asynchronous execution is sequentialised: promises
are evaluated in program order, and awaiting a promise that can never settle
(a computation awaiting its own ancestor) is modelled as divergence (`none`).
-/

namespace WorkflowToolkit

/-- Scalar result of the resolver: the JavaScript values `resolveColumnValue`
can return, a number or a string.  Numbers are modelled as rationals
(exact for every numeral the code base manipulates). -/
inductive Value where
  | num (q : ℚ)
  | str (s : String)
deriving DecidableEq, Repr

/-- Digit test used by the tokenizer (`/\d/`) and the numeral patterns. -/
def isDigitChar (c : Char) : Bool := c.isDigit

/-- JavaScript `String.prototype.trim` (both-ends whitespace removal),
computed on the character list. -/
def jsTrim (s : String) : String :=
  String.mk (((s.data.dropWhile Char.isWhitespace).reverse.dropWhile
    Char.isWhitespace).reverse)

/-- `toUpperCase` (ASCII, as the identifiers of this code base). -/
def strToUpper (s : String) : String := String.mk (s.data.map Char.toUpper)

/-- `toLowerCase` (ASCII). -/
def strToLower (s : String) : String := String.mk (s.data.map Char.toLower)

/-- `String.prototype.startsWith`. -/
def strStartsWith (s pre : String) : Bool := pre.data.isPrefixOf s.data

/-- `String.prototype.split(',')` on the character list. -/
def splitCommaChars : List Char → List (List Char)
  | [] => [[]]
  | c :: rest =>
    let r := splitCommaChars rest
    if c = ',' then [] :: r
    else
      match r with
      | h :: t => (c :: h) :: t
      | [] => [[c]]

/-- `String.prototype.split(',')`. -/
def splitOnComma (s : String) : List String := (splitCommaChars s.data).map String.mk

/-- Numeric value of a digit list (most significant first). -/
def digitsToNat (ds : List Char) : Nat :=
  ds.foldl (fun a c => a * 10 + (c.toNat - 48)) 0

/-- Reads an optional exponent body `[+-]?digits`; an exponent with no
digits contributes `0` (as `parseFloat` ignores a dangling `e`). -/
def readExpBody (cs : List Char) : Int :=
  let (sign, cs1) : Int × List Char :=
    match cs with
    | '-' :: r => (-1, r)
    | '+' :: r => (1, r)
    | _ => (1, cs)
  let ds := cs1.takeWhile isDigitChar
  if ds.isEmpty then 0 else sign * (digitsToNat ds : Int)

/-- Models the JavaScript `parseFloat` builtin on decimal forms: optional
leading whitespace and sign, then digits with an optional single fraction
and an optional exponent, parsed as the longest valid numeric prefix.
`none` models `NaN`.  (`Infinity` and hexadecimal forms are not produced by
any input this development evaluates.) -/
def jsParseFloat (s : String) : Option ℚ :=
  let cs := s.data.dropWhile (fun c => c.isWhitespace)
  let (sign, cs1) : ℚ × List Char :=
    match cs with
    | '-' :: r => (-1, r)
    | '+' :: r => (1, r)
    | _ => (1, cs)
  let intDs := cs1.takeWhile isDigitChar
  let rest1 := cs1.dropWhile isDigitChar
  let (fracDs, rest2) : List Char × List Char :=
    match rest1 with
    | '.' :: r => (r.takeWhile isDigitChar, r.dropWhile isDigitChar)
    | _ => ([], rest1)
  if intDs.isEmpty ∧ fracDs.isEmpty then none
  else
    let mantissa : ℚ := (digitsToNat intDs : ℚ) + (digitsToNat fracDs : ℚ) / ((10 : ℚ) ^ fracDs.length)
    let expVal : Int :=
      match rest2 with
      | 'e' :: r => readExpBody r
      | 'E' :: r => readExpBody r
      | _ => 0
    some (sign * mantissa * (10 : ℚ) ^ expVal)

/-- Models the JavaScript `parseInt(s, 10)` builtin: optional leading
whitespace and sign, then a digit prefix; `none` models `NaN`. -/
def jsParseInt (s : String) : Option Int :=
  let cs := s.data.dropWhile (fun c => c.isWhitespace)
  let (sign, cs1) : Int × List Char :=
    match cs with
    | '-' :: r => (-1, r)
    | '+' :: r => (1, r)
    | _ => (1, cs)
  let ds := cs1.takeWhile isDigitChar
  if ds.isEmpty then none else some (sign * (digitsToNat ds : Int))

/-- Models the JavaScript `Number(s)` coercion of a string: the trimmed
string must be empty (yielding `0`) or a complete decimal literal with
optional sign, fraction and exponent.  `none` models `NaN`.  (`Infinity`,
hexadecimal, octal and binary literals are not produced by any input this
development evaluates and are mapped to `none`.) -/
def jsNumberStr (s : String) : Option ℚ :=
  let cs := (jsTrim s).data
  if cs.isEmpty then some 0
  else
    let (sign, cs1) : ℚ × List Char :=
      match cs with
      | '-' :: r => (-1, r)
      | '+' :: r => (1, r)
      | _ => (1, cs)
    let intDs := cs1.takeWhile isDigitChar
    let rest1 := cs1.dropWhile isDigitChar
    let (fracDs, rest2) : List Char × List Char :=
      match rest1 with
      | '.' :: r => (r.takeWhile isDigitChar, r.dropWhile isDigitChar)
      | _ => ([], rest1)
    if intDs.isEmpty ∧ fracDs.isEmpty then none
    else
      let mantissa : ℚ := (digitsToNat intDs : ℚ) + (digitsToNat fracDs : ℚ) / ((10 : ℚ) ^ fracDs.length)
      match rest2 with
      | [] => some (sign * mantissa)
      | 'e' :: r => jsNumberExp sign mantissa r
      | 'E' :: r => jsNumberExp sign mantissa r
      | _ => none
where
  /-- Exponent of a complete `Number` literal: sign and at least one digit,
  consuming the whole remainder. -/
  jsNumberExp (sign mantissa : ℚ) (cs : List Char) : Option ℚ :=
    let (esign, cs1) : Int × List Char :=
      match cs with
      | '-' :: r => (-1, r)
      | '+' :: r => (1, r)
      | _ => (1, cs)
    let ds := cs1.takeWhile isDigitChar
    if ds.isEmpty ∨ ¬ (cs1.dropWhile isDigitChar).isEmpty then none
    else some (sign * mantissa * (10 : ℚ) ^ (esign * (digitsToNat ds : Int)))

/-- Left-pads a numeral string with zeros to the given width. -/
def padZeros (s : String) (width : Nat) : String :=
  String.mk (List.replicate (width - s.length) '0') ++ s

/-- Models JavaScript number-to-string conversion (`String(n)`).  Exact for
integers and for fractions whose denominator divides `10^6` (the only
non-integer values this development renders, after `formatResult`
rounding); other rationals use a `num/den` fallback never reached by the
evaluated programs. -/
def jsNumToString (q : ℚ) : String :=
  if q.den = 1 then toString q.num
  else if 10 ^ 6 % q.den = 0 then
    let n : Nat := q.num.natAbs * (10 ^ 6 / q.den)
    let ip : Nat := n / 10 ^ 6
    let fp : Nat := n % 10 ^ 6
    let fracStr :=
      String.mk (((padZeros (toString fp) 6).data.reverse.dropWhile
        (fun c => c = '0')).reverse)
    (if q < 0 then "-" else "") ++ toString ip ++ "." ++ fracStr
  else toString q.num ++ "/" ++ toString q.den

/-- Core of the strict numeral pattern `\d+(\.\d+)?`. -/
def isStrictNumeralCore (cs : List Char) : Bool :=
  let ds := cs.takeWhile isDigitChar
  let r := cs.dropWhile isDigitChar
  !ds.isEmpty && (r.isEmpty ||
    match r with
    | '.' :: fr => !fr.isEmpty && fr.all isDigitChar
    | _ => false)

/-- The strict numeral regex `^-?\d+(\.\d+)?$` used by the resolver to
decide whether a display value is converted to a number. -/
def isStrictNumeral (s : String) : Bool :=
  match s.data with
  | '-' :: rest => isStrictNumeralCore rest
  | cs => isStrictNumeralCore cs

/-- The comma-separated numeric list regex
`^-?\d+(\.\d+)?(,\s*-?\d+(\.\d+)?)*$` used by the mirror fast path. -/
def isNumericListStr (s : String) : Bool :=
  match splitOnComma s with
  | [] => false
  | p0 :: rest =>
    isStrictNumeral p0 &&
      rest.all fun p =>
        isStrictNumeral (String.mk (p.data.dropWhile (fun c => c.isWhitespace)))

/-!
## Tokenizer (`packages/formula-engine/src/tokenizer.js`)
-/

/-- Token of the formula language (`Token` class; `TokenType` becomes the
constructor).  Positions are indices into the source string. -/
inductive Tok where
  | number (value : ℚ) (position : Nat)
  | strLit (value : String) (position : Nat)
  | columnRef (columnId : String) (field : Option String) (position : Nat)
  | function (name : String) (position : Nat)
  | operator (value : String) (position : Nat)
  | lparen (position : Nat)
  | rparen (position : Nat)
  | comma (position : Nat)
  | boolean (value : Bool) (position : Nat)
  | eof (position : Nat)
deriving DecidableEq, Repr

/-- `/[a-zA-Z0-9_]/` from `readIdentifier`. -/
def isIdentChar (c : Char) : Bool := c.isAlpha || c.isDigit || c = '_'

/-- The closed function-name set of the tokenizer.  Note that
`readIdentifier` produces an identical `FUNCTION` token whether or not the
identifier is in this set (membership only affects logging), so the
tokenizer definition below does not consult it; it is retained for stating
unknown-name tolerance. -/
def FUNCTION_NAMES : List String :=
  ["CONCATENATE", "LEFT", "LEN", "LOWER", "REPLACE", "REPT", "RIGHT",
   "SEARCH", "SUBSTITUTE", "TEXT", "TRIM", "UPPER",
   "AND", "EXACT", "IF", "OR", "XOR", "SWITCH",
   "ABS", "AVERAGE", "DIVIDE", "COUNT", "LOG", "MAX", "MIN",
   "MINUS", "MULTIPLY", "MOD", "ROUND", "ROUNDUP", "ROUNDDOWN",
   "SQRT", "SUM", "POWER",
   "ADD_DAYS", "DATE", "DAY", "DAYS", "FORMAT_DATE", "HOUR",
   "HOURS_DIFF", "WORKDAYS", "WORKDAY", "MINUTE", "MONTH",
   "SECOND", "SUBTRACT_DAYS", "TODAY", "WEEKNUM", "ISOWEEKNUM",
   "YEAR", "SUBTRACT_MINUTES", "DATEVALUE", "NOW",
   "PI", "TRUE", "FALSE"]

/-- Operator strings (`OPERATORS`). -/
def OPERATORS : List String :=
  ["+", "-", "*", "/", "%", ">", "<", "=", ">=", "<=", "<>", "&"]

/-- Two-character operators (`TWO_CHAR_OPERATORS`). -/
def TWO_CHAR_OPERATORS : List String := [">=", "<=", "<>"]

/-- The digit/one-dot scan of `readNumber` (after the optional sign):
returns the consumed span and the remaining characters. -/
def spanNumberAux : List Char → Bool → List Char × List Char
  | [], _ => ([], [])
  | c :: rest, hasDec =>
    if isDigitChar c then
      let p := spanNumberAux rest hasDec
      (c :: p.1, p.2)
    else if c = '.' && !hasDec then
      let p := spanNumberAux rest true
      (c :: p.1, p.2)
    else ([], c :: rest)

/-- The scan loop of `readString` after the opening quote: collects the
value handling backslash-escaped same-quote characters; an unterminated
string yields the best-effort token. -/
def readStringLitAux (quote : Char) (pos : Nat) : List Char → String → Tok × List Char
  | [], acc => (Tok.strLit acc pos, [])
  | [c], acc =>
    if c = quote then (Tok.strLit acc pos, [])
    else (Tok.strLit (acc.push c) pos, [])
  | c :: d :: rest, acc =>
    if c = quote then (Tok.strLit acc pos, d :: rest)
    else if c = '\\' ∧ d = quote then readStringLitAux quote pos rest (acc.push d)
    else readStringLitAux quote pos (d :: rest) (acc.push c)

/-- The scan loop of `readColumnRef` after the opening brace: collects the
column id (trimmed) and the optional `#field` part; each `#` restarts the
field. -/
def readColumnRefAux (pos : Nat) :
    List Char → String → Option String → Tok × List Char
  | [], colId, field => (Tok.columnRef (jsTrim colId) field pos, [])
  | c :: rest, colId, field =>
    if c = '}' then (Tok.columnRef (jsTrim colId) field pos, rest)
    else if c = '#' then readColumnRefAux pos rest colId (some "")
    else
      match field with
      | some f => readColumnRefAux pos rest colId (some (f.push c))
      | none => readColumnRefAux pos rest (colId.push c) none

/-- `true` iff the list starts with a digit (the `peek(1)` test of
`nextToken` for a leading minus). -/
def headIsDigit : List Char → Bool
  | d :: _ => isDigitChar d
  | [] => false

/-- The tokenizer main loop (`nextToken` iterated by `tokenize`): skips
whitespace, dispatches on the first character, and appends an `EOF` token.
Unknown characters are skipped without producing a token
(`readOperator` returning `null`).  `readIdentifier` yields a `FUNCTION`
token for every non-boolean identifier, known or not.  The loop always
consumes at least one character, so the structural fuel supplied by
`tokenize` (`length + 1`) never runs out; the `0` branch is dead. -/
def tokenizeAux : Nat → List Char → Nat → List Tok
  | 0, _, _ => []
  | fuel + 1, cs, pos =>
    let csW := cs.dropWhile (fun c => c.isWhitespace)
    let posW := pos + (cs.length - csW.length)
    match csW with
    | [] => [Tok.eof posW]
    | c :: rest =>
      if isDigitChar c then
        let p := spanNumberAux rest false
        Tok.number ((jsParseFloat (String.mk (c :: p.1))).getD 0) posW ::
          tokenizeAux fuel p.2 (posW + 1 + p.1.length)
      else if c = '-' && headIsDigit rest then
        let p := spanNumberAux rest false
        Tok.number ((jsParseFloat (String.mk ('-' :: p.1))).getD 0) posW ::
          tokenizeAux fuel p.2 (posW + 1 + p.1.length)
      else if c = '"' || c = '\'' then
        let p := readStringLitAux c posW rest ""
        p.1 :: tokenizeAux fuel p.2 (posW + 1 + (rest.length - p.2.length))
      else if c = '{' then
        let p := readColumnRefAux posW rest "" none
        p.1 :: tokenizeAux fuel p.2 (posW + 1 + (rest.length - p.2.length))
      else if c.isAlpha || c = '_' then
        let ids := rest.takeWhile isIdentChar
        let r := rest.dropWhile isIdentChar
        let upper := strToUpper (String.mk (c :: ids))
        let tok :=
          if upper = "TRUE" then Tok.boolean true posW
          else if upper = "FALSE" then Tok.boolean false posW
          else Tok.function upper posW
        tok :: tokenizeAux fuel r (posW + 1 + ids.length)
      else if c = '(' then Tok.lparen posW :: tokenizeAux fuel rest (posW + 1)
      else if c = ')' then Tok.rparen posW :: tokenizeAux fuel rest (posW + 1)
      else if c = ',' then Tok.comma posW :: tokenizeAux fuel rest (posW + 1)
      else
        match rest with
        | d :: rest2 =>
          if TWO_CHAR_OPERATORS.contains (String.mk [c, d]) then
            Tok.operator (String.mk [c, d]) posW :: tokenizeAux fuel rest2 (posW + 2)
          else if OPERATORS.contains (String.mk [c]) then
            Tok.operator (String.mk [c]) posW :: tokenizeAux fuel (d :: rest2) (posW + 1)
          else tokenizeAux fuel (d :: rest2) (posW + 1)
        | [] =>
          if OPERATORS.contains (String.mk [c]) then
            Tok.operator (String.mk [c]) posW :: tokenizeAux fuel [] (posW + 1)
          else tokenizeAux fuel [] (posW + 1)

/-- `tokenize(formula)` — the full token sequence ending in `EOF`. -/
def tokenize (formula : String) : List Tok :=
  tokenizeAux (formula.data.length + 1) formula.data 0

/-- First-occurrence deduplication (a JavaScript `Set` iterated in
insertion order, as in `extractColumnIds`). -/
def dedupFirst (l : List String) : List String :=
  go [] l
where
  go (seen : List String) : List String → List String
    | [] => []
    | x :: rest => if seen.contains x then go seen rest else x :: go (x :: seen) rest

/-- `extractColumnIds(formula)`: the column ids of all `COLUMN_REF` tokens,
deduplicated in first-occurrence order. -/
def extractColumnIds (formula : String) : List String :=
  dedupFirst ((tokenize formula).filterMap fun t =>
    match t with
    | Tok.columnRef cid _ _ => some cid
    | _ => none)

/-!
## Parser (`packages/formula-engine/src/parser.js`)
-/

/-- JavaScript value universe of the formula evaluator: numbers (with a
separate `NaN`), strings and booleans.  (`Date` objects and structured
column objects do not occur in any value the resolver feeds the
evaluator, and the abstract function table below is typed over this
universe.) -/
inductive JSVal where
  | num (q : ℚ)
  | nan
  | str (s : String)
  | bool (b : Bool)
deriving DecidableEq, Repr

/-- AST node (`NodeType` with the `AST` factory fields). -/
inductive Node where
  | literal (value : JSVal) (dataType : String)
  | columnRef (columnId : String) (field : Option String)
  | functionCall (name : String) (args : List Node)
  | binaryOp (op : String) (left : Node) (right : Node)
  | unaryOp (op : String) (operand : Node)
deriving Repr

/-- The `AST.literal` factory with `dataType = 'auto'`: the tag is derived
from the JavaScript `typeof` of the value. -/
def literalAuto (v : JSVal) : Node :=
  Node.literal v
    (match v with
     | JSVal.num _ => "number"
     | JSVal.nan => "number"
     | JSVal.bool _ => "boolean"
     | JSVal.str _ => "string")

/-- Operator precedence table (`PRECEDENCE`); `none` for strings that are
not binary operators. -/
def PRECEDENCE (op : String) : Option Nat :=
  if op = "<" ∨ op = ">" ∨ op = "=" ∨ op = "<=" ∨ op = ">=" ∨ op = "<>" then some 1
  else if op = "+" ∨ op = "-" then some 2
  else if op = "*" ∨ op = "/" ∨ op = "%" then some 3
  else if op = "&" then some 4
  else none

/-- `TokenType` name of a token, as interpolated into error messages. -/
def tokTypeName : Tok → String
  | Tok.number _ _ => "NUMBER"
  | Tok.strLit _ _ => "STRING"
  | Tok.columnRef _ _ _ => "COLUMN_REF"
  | Tok.function _ _ => "FUNCTION"
  | Tok.operator _ _ => "OPERATOR"
  | Tok.lparen _ => "LPAREN"
  | Tok.rparen _ => "RPAREN"
  | Tok.comma _ => "COMMA"
  | Tok.boolean _ _ => "BOOLEAN"
  | Tok.eof _ => "EOF"

/-- Position of a token (for error messages). -/
def tokPosition : Tok → Nat
  | Tok.number _ p => p
  | Tok.strLit _ p => p
  | Tok.columnRef _ _ p => p
  | Tok.function _ p => p
  | Tok.operator _ p => p
  | Tok.lparen p => p
  | Tok.rparen p => p
  | Tok.comma p => p
  | Tok.boolean _ p => p
  | Tok.eof p => p

/-- String interpolation of a token value into the default error message
(JavaScript `${token.value}`; a column-ref value is an object and prints
as `[object Object]`, an `EOF` value is `null`). -/
def tokValueStr : Tok → String
  | Tok.number v _ => jsNumToString v
  | Tok.strLit s _ => s
  | Tok.columnRef _ _ _ => "[object Object]"
  | Tok.function n _ => n
  | Tok.operator s _ => s
  | Tok.lparen _ => "("
  | Tok.rparen _ => ")"
  | Tok.comma _ => ","
  | Tok.boolean b _ => if b then "true" else "false"
  | Tok.eof _ => "null"

/-- The message thrown by `Parser.expect` when the expected token is
absent: ```MESSAGE. Got TYPE at position POS``` (with `undefined` fields
when no token remains; unreachable for tokenizer output, which always ends
in `EOF`). -/
def expectMsg (message : String) : Option Tok → String
  | some t =>
    message ++ ". Got " ++ tokTypeName t ++ " at position " ++ toString (tokPosition t)
  | none => message ++ ". Got undefined at position undefined"

/-- The double `Math.PI`, an exact rational. -/
def mathPI : ℚ := 3141592653589793 / 10 ^ 15

mutual

/-- `Parser.parseExpression(minPrecedence)`: a primary followed by the
binary-operator loop.  The `fuel` argument is an upper bound on the
recursion depth: the entry point supplies `5 * tokens.length + 10`,
well above the maximal nesting depth of the recursive-descent calls
(each chain of at most three nested calls consumes a token), so the
out-of-fuel branch is unreachable from `parseFormula`. -/
def parseExpression : Nat → Nat → List Tok → Except String (Node × List Tok)
  | 0, _, _ => .error "parser fuel exhausted"
  | fuel + 1, minPrec, ts =>
    match parsePrimary fuel ts with
    | .error e => .error e
    | .ok (left, ts1) => parseBinOps fuel minPrec left ts1

/-- The `while (this.check(TokenType.OPERATOR))` loop of
`parseExpression`: folds operators of at-least-minimal precedence into
left-associated `BINARY_OP` nodes. -/
def parseBinOps : Nat → Nat → Node → List Tok → Except String (Node × List Tok)
  | 0, _, _, _ => .error "parser fuel exhausted"
  | fuel + 1, minPrec, left, ts =>
    match ts with
    | Tok.operator op pos :: rest =>
      match PRECEDENCE op with
      | none => .ok (left, Tok.operator op pos :: rest)
      | some prec =>
        if prec < minPrec then .ok (left, Tok.operator op pos :: rest)
        else
          match parseExpression fuel (prec + 1) rest with
          | .error e => .error e
          | .ok (right, ts2) =>
            parseBinOps fuel minPrec (Node.binaryOp op left right) ts2
    | other => .ok (left, other)

/-- `Parser.parsePrimary`: literals, column refs, function calls, grouped
expressions and unary minus; an exhausted / `EOF` head yields an empty
string literal without consuming. -/
def parsePrimary : Nat → List Tok → Except String (Node × List Tok)
  | 0, _ => .error "parser fuel exhausted"
  | fuel + 1, ts =>
    match ts with
    | [] => .ok (Node.literal (JSVal.str "") "string", [])
    | Tok.eof p :: rest =>
      .ok (Node.literal (JSVal.str "") "string", Tok.eof p :: rest)
    | Tok.number v _ :: rest => .ok (Node.literal (JSVal.num v) "number", rest)
    | Tok.strLit s _ :: rest => .ok (Node.literal (JSVal.str s) "string", rest)
    | Tok.boolean b _ :: rest => .ok (Node.literal (JSVal.bool b) "boolean", rest)
    | Tok.columnRef cid f _ :: rest => .ok (Node.columnRef cid f, rest)
    | Tok.function name _ :: rest => parseFunctionCall fuel name rest
    | Tok.lparen _ :: rest =>
      match parseExpression fuel 0 rest with
      | .error e => .error e
      | .ok (expr, ts2) =>
        match ts2 with
        | Tok.rparen _ :: ts3 => .ok (expr, ts3)
        | t :: _ => .error (expectMsg "Expected \x27)\x27" (some t))
        | [] => .error (expectMsg "Expected \x27)\x27" none)
    | Tok.operator op _ :: rest =>
      if op = "-" then
        match parsePrimary fuel rest with
        | .error e => .error e
        | .ok (operand, ts2) => .ok (Node.unaryOp "-" operand, ts2)
      else .error ("Unexpected operator: " ++ op)
    | t :: _ =>
      .error ("Unexpected token: " ++ tokTypeName t ++ " (" ++ tokValueStr t ++ ")")

/-- `Parser.parseFunctionCall` after the name token has been consumed:
parenthesised argument lists, and the paren-free constants
(`TRUE`, `FALSE`, `PI`) and zero-argument function calls. -/
def parseFunctionCall : Nat → String → List Tok → Except String (Node × List Tok)
  | 0, _, _ => .error "parser fuel exhausted"
  | fuel + 1, name, ts =>
    match ts with
    | Tok.lparen _ :: rest2 =>
      match rest2 with
      | Tok.rparen _ :: rest3 => .ok (Node.functionCall name [], rest3)
      | other =>
        match parseExpression fuel 0 other with
        | .error e => .error e
        | .ok (arg1, ts3) =>
          match parseArgsRest fuel ts3 with
          | .error e => .error e
          | .ok (moreArgs, ts4) =>
            match ts4 with
            | Tok.rparen _ :: ts5 => .ok (Node.functionCall name (arg1 :: moreArgs), ts5)
            | t :: _ =>
              .error (expectMsg
                ("Expected \x27)\x27 after function arguments for " ++ name) (some t))
            | [] =>
              .error (expectMsg
                ("Expected \x27)\x27 after function arguments for " ++ name) none)
    | other =>
      if name = "TRUE" then .ok (Node.literal (JSVal.bool true) "boolean", other)
      else if name = "FALSE" then .ok (Node.literal (JSVal.bool false) "boolean", other)
      else if name = "PI" then .ok (Node.literal (JSVal.num mathPI) "number", other)
      else .ok (Node.functionCall name [], other)

/-- The `while (this.check(TokenType.COMMA))` argument loop of
`parseFunctionCall`. -/
def parseArgsRest : Nat → List Tok → Except String (List Node × List Tok)
  | 0, _ => .error "parser fuel exhausted"
  | fuel + 1, ts =>
    match ts with
    | Tok.comma _ :: rest =>
      match parseExpression fuel 0 rest with
      | .error e => .error e
      | .ok (arg, ts2) =>
        match parseArgsRest fuel ts2 with
        | .error e => .error e
        | .ok (args, ts3) => .ok (arg :: args, ts3)
    | other => .ok ([], other)

end

/-- `parse(formula)` (the `Parser.parse` entry point through the module
convenience function): an empty token stream yields an empty string
literal; trailing tokens after a successful parse are ignored with a
warning.  A thrown error surfaces as `.error`. -/
def parseFormula (formula : String) : Except String Node :=
  match tokenize formula with
  | [] => .ok (Node.literal (JSVal.str "") "string")
  | [Tok.eof _] => .ok (Node.literal (JSVal.str "") "string")
  | tokens =>
    match parseExpression (5 * tokens.length + 10) 0 tokens with
    | .error e => .error e
    | .ok (node, _) => .ok node

/-!
## Evaluator (`packages/formula-engine/src/evaluator.js`)

The ~60-function library (`src/functions/`) is modelled as an abstract
total table `FuncTable`; no claim of this development depends on the
semantics of an individual builtin.
-/

/-- Association-list lookup (first binding wins; all maps built by the
embedded code bind each key at most once per lookup scope). -/
def alookup {α β : Type} [DecidableEq α] (k : α) : List (α × β) → Option β
  | [] => none
  | (k2, v) :: rest => if k2 = k then some v else alookup k rest

/-- The abstract function registry (`getFunction`): a name resolves to a
total function over evaluator values or is unknown. -/
def FuncTable : Type := String → Option (List JSVal → JSVal)

/-- `Number(v)` for an evaluator value; `none` models `NaN`. -/
def jsNumOfVal : JSVal → Option ℚ
  | JSVal.num q => some q
  | JSVal.nan => none
  | JSVal.str s => jsNumberStr s
  | JSVal.bool b => some (if b then 1 else 0)

/-- `Number(v) || 0` (`NaN` and `0` both collapse to `0`). -/
def jsNumOr0 (v : JSVal) : ℚ := (jsNumOfVal v).getD 0

/-- `String(v)` for an evaluator value. -/
def jsStringOfVal : JSVal → String
  | JSVal.num q => jsNumToString q
  | JSVal.nan => "NaN"
  | JSVal.str s => s
  | JSVal.bool b => if b then "true" else "false"

/-- JavaScript truthiness over the evaluator universe. -/
def jsTruthy : JSVal → Bool
  | JSVal.num q => q ≠ 0
  | JSVal.nan => false
  | JSVal.str s => s ≠ ""
  | JSVal.bool b => b

/-- Truncation towards zero (JavaScript integer division used by `%`). -/
def jsTrunc (q : ℚ) : Int := if q < 0 then Int.ceil q else Int.floor q

/-- The JavaScript remainder `a % d` (sign of the dividend). -/
def jsMod (a d : ℚ) : ℚ := a - d * (jsTrunc (a / d) : ℚ)

/-- Numeric comparison `cmp(Number(a), Number(b))`; any `NaN` side yields
`false`, as in JavaScript. -/
def jsNumCompare (cmp : ℚ → ℚ → Prop) [DecidableRel cmp] (a b : JSVal) : Bool :=
  match jsNumOfVal a, jsNumOfVal b with
  | some x, some y => decide (cmp x y)
  | _, _ => false

/-- `BINARY_OPS[op]`; `none` models an operator absent from the table (the
evaluator then returns the empty string). -/
def applyBinaryOp (op : String) (a b : JSVal) : Option JSVal :=
  if op = "+" then
    some (match jsNumOfVal a, jsNumOfVal b with
      | some x, some y => JSVal.num (x + y)
      | _, _ => JSVal.str (jsStringOfVal a ++ jsStringOfVal b))
  else if op = "-" then some (JSVal.num (jsNumOr0 a - jsNumOr0 b))
  else if op = "*" then some (JSVal.num (jsNumOr0 a * jsNumOr0 b))
  else if op = "/" then
    some (match jsNumOfVal b with
      | some d => if d = 0 then JSVal.num 0 else JSVal.num (jsNumOr0 a / d)
      | none => JSVal.nan)
  else if op = "%" then
    some (match jsNumOfVal b with
      | some d => if d = 0 then JSVal.num 0 else JSVal.num (jsMod (jsNumOr0 a) d)
      | none => JSVal.nan)
  else if op = "&" then some (JSVal.str (jsStringOfVal a ++ jsStringOfVal b))
  else if op = ">" then some (JSVal.bool (jsNumCompare (· > ·) a b))
  else if op = "<" then some (JSVal.bool (jsNumCompare (· < ·) a b))
  else if op = ">=" then some (JSVal.bool (jsNumCompare (· ≥ ·) a b))
  else if op = "<=" then some (JSVal.bool (jsNumCompare (· ≤ ·) a b))
  else if op = "=" then
    some (JSVal.bool
      (match jsNumOfVal a, jsNumOfVal b with
       | some x, some y => decide (x = y)
       | _, _ => decide (jsStringOfVal a = jsStringOfVal b)))
  else if op = "<>" then
    some (JSVal.bool
      (match jsNumOfVal a, jsNumOfVal b with
       | some x, some y => decide (x ≠ y)
       | _, _ => decide (jsStringOfVal a ≠ jsStringOfVal b)))
  else none

/-- `UNARY_OPS[op]`; an unknown operator returns the operand unchanged. -/
def applyUnaryOp (op : String) (v : JSVal) : JSVal :=
  if op = "-" then JSVal.num (-(jsNumOr0 v))
  else if op = "!" then JSVal.bool (!(jsTruthy v))
  else v

mutual

/-- `Evaluator.evaluate`: walks the AST against the column-value
environment.  A missing column yields the empty string; the sub-`field`
extraction only applies to structured objects, which do not occur in this
value universe and so leaves the value unchanged.  An unknown function or
binary operator yields the empty string (the abstract function table is
total, so the `try/catch` around a call never fires). -/
def evalNode (funcs : FuncTable) (env : List (String × JSVal)) : Node → JSVal
  | Node.literal v _ => v
  | Node.columnRef cid _ =>
    match alookup cid env with
    | none => JSVal.str ""
    | some v => v
  | Node.functionCall name args =>
    match funcs (strToUpper name) with
    | none => JSVal.str ""
    | some f => f (evalArgs funcs env args)
  | Node.binaryOp op l r =>
    match applyBinaryOp op (evalNode funcs env l) (evalNode funcs env r) with
    | some v => v
    | none => JSVal.str ""
  | Node.unaryOp op o => applyUnaryOp op (evalNode funcs env o)

/-- The `node.arguments.map(arg => this.evaluateNode(...))` argument
evaluation of `FUNCTION_CALL` nodes. -/
def evalArgs (funcs : FuncTable) (env : List (String × JSVal)) : List Node → List JSVal
  | [] => []
  | n :: rest => evalNode funcs env n :: evalArgs funcs env rest

end

/-- `Math.round` (round half towards positive infinity). -/
def jsRound (q : ℚ) : Int := Int.floor (q + 1 / 2)

/-- `formatResult(value)`: booleans to `true`/`false`, integers verbatim,
fractional numbers rounded to six decimals (`Math.round(v*1e6)/1e6`);
`NaN` prints as `NaN`.  (The `Date` branch is unreachable over this value
universe.) -/
def formatResult : JSVal → String
  | JSVal.bool b => if b then "true" else "false"
  | JSVal.nan => "NaN"
  | JSVal.num q =>
    if q.den = 1 then toString q.num
    else jsNumToString ((jsRound (q * 10 ^ 6) : ℚ) / 10 ^ 6)
  | JSVal.str s => s

/-- `evaluateFormula(formula, columnValues)` (`src/index.js`): an empty (or
non-string, impossible here) formula yields `''`; a parse failure is caught
and yields `''`; otherwise the AST is evaluated and formatted. -/
def evaluateFormula (funcs : FuncTable) (formula : String)
    (columnValues : List (String × JSVal)) : String :=
  if formula = "" then ""
  else
    match parseFormula formula with
    | .error _ => ""
    | .ok ast => formatResult (evalNode funcs columnValues ast)

/-!
## Column-value extractor
(`packages/formula-engine/src/column-value-extractor.js`)
-/

/-- `parseNumericValues(displayValue)`: split on commas, trim, drop empty /
`null` / `undefined` entries, parse with `parseFloat` and drop `NaN`s. -/
def parseNumericValues (displayValue : String) : List ℚ :=
  if displayValue = "" then []
  else
    (((splitOnComma displayValue).map jsTrim).filter
        (fun v => v != "" && v != "null" && v != "undefined")).filterMap jsParseFloat

/-- `Math.min(...values)` over a non-empty list (`0` for the unreachable
empty case). -/
def listMin : List ℚ → ℚ
  | [] => 0
  | v :: rest => rest.foldl min v

/-- `Math.max(...values)` over a non-empty list. -/
def listMax : List ℚ → ℚ
  | [] => 0
  | v :: rest => rest.foldl max v

/-- `applyAggregationFunction(values, func)`: empty input yields `0`; the
function name is lower-cased (`(func || '').toLowerCase()`, so an absent or
empty name behaves like an unknown one); `sum`, `avg`/`average`, `count`,
`min` and `max` are recognised, and any other name falls back to the sum. -/
def applyAggregationFunction (values : List ℚ) (func : Option String) : ℚ :=
  if values = [] then 0
  else
    let funcLower := strToLower (func.getD "")
    if funcLower = "sum" then values.foldl (· + ·) 0
    else if funcLower = "avg" ∨ funcLower = "average" then
      values.foldl (· + ·) 0 / (values.length : ℚ)
    else if funcLower = "count" then (values.length : ℚ)
    else if funcLower = "min" then listMin values
    else if funcLower = "max" then listMax values
    else values.foldl (· + ·) 0

/-- A linked item `{ id, name }` (GraphQL ids are strings). -/
structure LinkedItem where
  id : String
  name : Option String
deriving DecidableEq, Repr

/-- A mirrored item `{ linked_board_id, linked_item }`.  The board id is
kept as a string (`String(...)` is applied at every use site in the
source); an empty string models a missing/falsy id. -/
structure MirroredItem where
  linked_board_id : String
  linked_item : Option LinkedItem
deriving DecidableEq, Repr

/-- A `persons_and_teams` entry. -/
structure PersonOrTeam where
  id : String
  name : Option String
deriving DecidableEq, Repr

/-- A dropdown `values` entry. -/
structure DropdownValue where
  label : Option String
  name : Option String
deriving DecidableEq, Repr

/-- A `displayed_linked_columns` entry of mirror settings. -/
structure LinkedColumnTarget where
  board_id : Option String
  column_ids : List String
deriving DecidableEq, Repr

/-- The decoded `settings` object of a column.  Only the fields the
embedded code reads are modelled (`relation_column` is read only by
`extractRelationColumnId`, which no resolver path calls). -/
structure ColumnSettings where
  formula : Option String := none
  function : Option String := none
  displayed_linked_columns : List LinkedColumnTarget := []
deriving DecidableEq, Repr

/-- A raw column-value payload as returned by the remote queries; every
field the extractor table reads, each optional (`none` = absent/`null`).
`from_`/`to_` stand for the source's `from`/`to` (Lean keywords); the
`duration` of time tracking is in non-negative seconds. -/
structure RawColumnValue where
  type : Option String := none
  text : Option String := none
  number : Option ℚ := none
  display_value : Option String := none
  label : Option String := none
  checked : Option Bool := none
  date : Option String := none
  time : Option String := none
  hour : Option Int := none
  minute : Option Int := none
  from_ : Option String := none
  to_ : Option String := none
  rating : Option ℚ := none
  vote_count : Option ℚ := none
  duration : Option Nat := none
  item_id : Option String := none
  created_at : Option String := none
  updated_at : Option String := none
  url : Option String := none
  email : Option String := none
  phone : Option String := none
  name : Option String := none
  timezone : Option String := none
  start_date : Option String := none
  end_date : Option String := none
  values : Option (List DropdownValue) := none
  persons_and_teams : Option (List PersonOrTeam) := none
  linked_items : Option (List LinkedItem) := none
  mirrored_items : Option (List MirroredItem) := none
deriving DecidableEq, Repr

/-- `array.join(', ')`. -/
def joinComma : List String → String
  | [] => ""
  | [s] => s
  | s :: rest => s ++ ", " ++ joinComma rest

/-- The `mirror` entry of `VALUE_EXTRACTORS`: a truthy aggregation function
in the settings together with a truthy `display_value` that parses to at
least one number applies the aggregation; otherwise available
`mirrored_items` are joined by name (falsy entries filtered); otherwise a
truthy `display_value` is returned, else the text fallback. -/
def extractMirrorValue (cv : RawColumnValue) (settings : Option ColumnSettings) : Value :=
  let aggResult : Option Value :=
    match settings with
    | some st =>
      match st.function with
      | some fn =>
        match cv.display_value with
        | some d =>
          if fn ≠ "" ∧ d ≠ "" then
            let vals := parseNumericValues d
            if vals ≠ [] then some (Value.num (applyAggregationFunction vals (some fn)))
            else none
          else none
        | none => none
      | none => none
    | none => none
  match aggResult with
  | some v => v
  | none =>
    match cv.mirrored_items with
    | some items =>
      Value.str (joinComma
        (((items.filterMap fun m =>
            match m.linked_item with
            | some li => some (li.name.getD li.id)
            | none => none)).filter (fun s => s != "")))
    | none =>
      match cv.display_value with
      | some d => if d ≠ "" then Value.str d else Value.str (cv.text.getD "")
      | none => Value.str (cv.text.getD "")

/-- The `VALUE_EXTRACTORS` table applied to a lower-cased column type;
unknown types fall back to the text field.  Every extractor is total over
this payload type, so the `try/catch` and the null-result smart default of
the source never fire. -/
def extractByType (type : String) (cv : RawColumnValue)
    (settings : Option ColumnSettings) : Value :=
  if type = "text" ∨ type = "long_text" then Value.str (cv.text.getD "")
  else if type = "email" then Value.str (cv.text.getD (cv.email.getD ""))
  else if type = "link" then Value.str (cv.text.getD (cv.url.getD ""))
  else if type = "phone" then Value.str (cv.text.getD (cv.phone.getD ""))
  else if type = "numbers" then
    match cv.number with
    | some q => Value.num q
    | none => Value.str (cv.text.getD "")
  else if type = "date" then
    match cv.date with
    | some d =>
      if d = "" then Value.str (cv.text.getD "")
      else
        match cv.time with
        | some t => if t = "" then Value.str d else Value.str (d ++ " " ++ t)
        | none => Value.str d
    | none => Value.str (cv.text.getD "")
  else if type = "hour" then
    match cv.hour with
    | some h =>
      Value.str (padZeros (toString h) 2 ++ ":" ++ padZeros (toString (cv.minute.getD 0)) 2)
    | none => Value.str (cv.text.getD "")
  else if type = "timeline" then
    match cv.from_, cv.to_ with
    | some f, some t =>
      if f ≠ "" ∧ t ≠ "" then Value.str (f ++ " - " ++ t) else Value.str (cv.text.getD "")
    | _, _ => Value.str (cv.text.getD "")
  else if type = "status" then Value.str (cv.label.getD (cv.text.getD ""))
  else if type = "dropdown" then
    match cv.values with
    | some vs =>
      Value.str (joinComma (vs.map fun v => v.label.getD (v.name.getD "[object Object]")))
    | none => Value.str (cv.text.getD "")
  else if type = "people" then
    match cv.persons_and_teams with
    | some ps => Value.str (joinComma (ps.map fun p => p.name.getD p.id))
    | none => Value.str (cv.text.getD "")
  else if type = "checkbox" then
    match cv.checked with
    | some b => Value.str (if b then "true" else "false")
    | none => Value.str (cv.text.getD "")
  else if type = "rating" then
    match cv.rating with
    | some q => Value.num q
    | none => Value.str (cv.text.getD "")
  else if type = "vote" then
    match cv.vote_count with
    | some q => Value.num q
    | none => Value.str (cv.text.getD "")
  else if type = "country" then Value.str (cv.text.getD (cv.name.getD ""))
  else if type = "creation_log" then Value.str (cv.text.getD (cv.created_at.getD ""))
  else if type = "last_updated" then Value.str (cv.text.getD (cv.updated_at.getD ""))
  else if type = "item_id" then Value.str (cv.text.getD (cv.item_id.getD ""))
  else if type = "time_tracking" then
    match cv.duration with
    | some dur =>
      Value.str (toString (dur / 3600) ++ ":" ++ padZeros (toString (dur % 3600 / 60)) 2)
    | none => Value.str (cv.text.getD "")
  else if type = "dependency" ∨ type = "board_relation" then
    match cv.linked_items with
    | some items => Value.str (joinComma (items.map fun it => it.name.getD it.id))
    | none => Value.str (cv.text.getD "")
  else if type = "mirror" then extractMirrorValue cv settings
  else if type = "formula" then Value.str (cv.display_value.getD (cv.text.getD ""))
  else if type = "world_clock" then Value.str (cv.text.getD (cv.timezone.getD ""))
  else if type = "week" then
    match cv.start_date, cv.end_date with
    | some s, some e =>
      if s ≠ "" ∧ e ≠ "" then Value.str (s ++ " - " ++ e) else Value.str (cv.text.getD "")
    | _, _ => Value.str (cv.text.getD "")
  else Value.str (cv.text.getD "")

/-- `extractColumnValue(columnValue, columnType, columnSettings)`: a
missing payload yields the smart default (`0` for `numbers`, `''`
otherwise); the type comes from the argument or the payload, and without
either the text fallback applies. -/
def extractColumnValue (colValue : Option RawColumnValue) (columnType : Option String)
    (columnSettings : Option ColumnSettings) : Value :=
  match colValue with
  | none => if strToLower (columnType.getD "") = "numbers" then Value.num 0 else Value.str ""
  | some cv =>
    match (match columnType with
           | some t => some (strToLower t)
           | none => cv.type.map (fun t => strToLower t)) with
    | none => Value.str (cv.text.getD "")
    | some type => extractByType type cv columnSettings

/-!
## Resolver and session cache
(`resolver/resolve-column-value.js`, `resolver/handle-formula.js`,
`resolver/handle-mirror.js`, `resolver/schema-cache.js`,
`resolver/strategy-selector.js`, `resolver/graphql-queries.js`)

Asynchronous execution is sequentialised: `Promise.all` fan-outs run in
list order over the threaded state, the coordinator batch window collapses
to per-request batches (the spec's window-0 case), and awaiting a promise
that the current computation itself must settle is divergence (`none`).
-/

/-- A column definition as served by the schema query. -/
structure Column where
  id : String
  title : String
  type : String
  settings : ColumnSettings
deriving DecidableEq, Repr

/-- A `fetchMirrorDeep` result. -/
structure MirrorData where
  display_value : Option String := none
  mirrored_items : List MirroredItem := []
deriving DecidableEq, Repr

/-- A transport / platform error surfaced by the `QueryClient`, with its
cause. -/
structure RemoteErr where
  cause : String
deriving DecidableEq, Repr

/-- The remote world observed through the resolver's queries, as finite
data (so that the key space reachable by a resolution is finite).
`schemas` maps a board id to its columns or to the error the `QueryClient`
surfaces for that board's schema query; a missing entry is a board unknown
to the platform (`fetchBoardColumns` then throws `Board not found`).
Display/numeric/deep payloads are keyed by `(itemId, columnId)`; a missing
entry models an absent item or column value.  Transport errors are
modelled on the board-schema query only — the one query the session
caches guard with a `catch`; the display-value, deep-mirror and numeric
queries are served totally here, so a thrown value-query error (which the
source does not catch on the resolve path) does not occur in this model.
The abstract evaluator function registry rides along. -/
structure Env where
  schemas : List (String × Except RemoteErr (List Column)) := []
  displayItems : List ((Int × String) × RawColumnValue) := []
  numericItems : List ((Int × String) × RawColumnValue) := []
  mirrorDeep : List ((Int × String) × MirrorData) := []
  multiDeep : List ((Int × String) × RawColumnValue) := []
  funcs : FuncTable := fun _ => none

/-- A `ResolutionKey` `(boardId, columnId, itemId)`.  The source encodes it
as the string `boardId:columnId:itemId`; the triple is equivalent for ids
without colons. -/
abbrev ResolutionKey := String × String × Int

/-- Per-session mutable state: the schema cache, value cache, pending-value
set and coordinator cache of `createSimpleCache` (the plain
`createSchemaCache` uses only the schema cache), plus a count of
`QueryClient` calls issued.  Pending *schema* requests are a concurrency
artefact that vanishes under sequentialisation. -/
structure St where
  schemaCache : List (String × List Column) := []
  valueCache : List (ResolutionKey × Value) := []
  pending : List ResolutionKey := []
  coordCache : List ((Int × String) × Value) := []
  remoteCalls : Nat := 0

/-- Which cache object the caller passed: `createSimpleCache` (`enhanced`,
with value cache, in-flight value dedup and the coordinator — the resolver
feature-detects them via `schemaCache.hasValue && …`,
`schemaCache.coordinatorRequest && …`) or the plain `createSchemaCache`,
where those checks all fail. -/
structure Cfg where
  enhanced : Bool

/-- The `createSimpleCache` configuration. -/
def simpleCacheCfg : Cfg := ⟨true⟩

/-- The `createSchemaCache` configuration. -/
def schemaCacheCfg : Cfg := ⟨false⟩

/-- Building `columnsMap` by insertion and reading it back: the last
column with a matching id wins, `null` when absent. -/
def colsMapLookup (columnId : String) (cols : List Column) : Option Column :=
  cols.foldl (fun acc col => if col.id = columnId then some col else acc) none

/-- `getColumn(boardId, columnId)` of the session caches: serve from the
schema cache, else fetch the board's columns in one query; a failure
(transport error or unknown board) is caught, logged and surfaces as a
`null` column without caching.  (`createSchemaCache`'s TTL cannot expire
within a session; its pending-request dedup is a concurrency artefact.) -/
def getColumn (env : Env) (boardId columnId : String) (st : St) :
    Option Column × St :=
  match alookup boardId st.schemaCache with
  | some cols => (colsMapLookup columnId cols, st)
  | none =>
    match alookup boardId env.schemas with
    | some (.ok cols) =>
      (colsMapLookup columnId cols,
       { st with schemaCache := (boardId, cols) :: st.schemaCache,
                 remoteCalls := st.remoteCalls + 1 })
    | some (.error _) => (none, { st with remoteCalls := st.remoteCalls + 1 })
    | none => (none, { st with remoteCalls := st.remoteCalls + 1 })

/-- `fetchDisplayValue`: one remote call; `display_value` first, then the
`number` field, then truthy `text`, else `null`. -/
def fetchDisplayValue (env : Env) (itemId : Int) (columnId : String) (st : St) :
    Option Value × St :=
  let st1 := { st with remoteCalls := st.remoteCalls + 1 }
  match alookup (itemId, columnId) env.displayItems with
  | none => (none, st1)
  | some cv =>
    match cv.display_value with
    | some s => (some (Value.str s), st1)
    | none =>
      match cv.number with
      | some q => (some (Value.num q), st1)
      | none =>
        match cv.text with
        | some t => (if t = "" then none else some (Value.str t), st1)
        | none => (none, st1)

/-- `fetchNumericValue`: one remote call; the `number` field, else
`parseFloat` of `display_value` (`NaN` → `0`), else `parseFloat` of truthy
`text`, else `0`. -/
def fetchNumericValue (env : Env) (itemId : Int) (columnId : String) (st : St) :
    ℚ × St :=
  let st1 := { st with remoteCalls := st.remoteCalls + 1 }
  match alookup (itemId, columnId) env.numericItems with
  | none => (0, st1)
  | some cv =>
    match cv.number with
    | some q => (q, st1)
    | none =>
      match cv.display_value with
      | some s => ((jsParseFloat s).getD 0, st1)
      | none =>
        match cv.text with
        | some t => (if t = "" then 0 else (jsParseFloat t).getD 0, st1)
        | none => (0, st1)

/-- `fetchMirrorDeep`: one remote call; a missing item or column value
yields `{ display_value: null, mirrored_items: [] }`. -/
def fetchMirrorDeep (env : Env) (itemId : Int) (columnId : String) (st : St) :
    MirrorData × St :=
  ((alookup (itemId, columnId) env.mirrorDeep).getD {},
   { st with remoteCalls := st.remoteCalls + 1 })

/-- `coordinatorRequest(itemId, columnId)` sequentialised: a coordinator
cache hit answers without remote traffic; otherwise the batch — here of
the single requested column, the batch window collapsing under
sequentialisation (the spec's window-0 case) — issues one multi-column
deep query and caches the value extracted as
`extractColumnValue(colValue, colValue?.type)`. -/
def coordinatorRequest (env : Env) (itemId : Int) (columnId : String) (st : St) :
    Value × St :=
  match alookup (itemId, columnId) st.coordCache with
  | some v => (v, st)
  | none =>
    let cv := alookup (itemId, columnId) env.multiDeep
    let value := extractColumnValue cv (cv.bind (fun c => c.type)) none
    (value,
     { st with coordCache := ((itemId, columnId), value) :: st.coordCache,
               remoteCalls := st.remoteCalls + 1 })

/-- `isNullishDisplayValue` over a fetched value (`null` / `undefined` /
`'null'` / `''`). -/
def isNullishDV : Option Value → Bool
  | none => true
  | some (Value.str s) => s = "null" || s = ""
  | some (Value.num _) => false

/-- `parseDisplayValue`: numbers pass through; strings go through
`parseFloat`, keeping the string on `NaN`. -/
def parseDisplayValue : Value → Value
  | Value.num q => Value.num q
  | Value.str s =>
    match jsParseFloat s with
    | some q => Value.num q
    | none => Value.str s

/-- `isNumericValue`: a number, or a string whose trim matches the
comma-separated numeric pattern. -/
def isNumericValue : Value → Bool
  | Value.num _ => true
  | Value.str s => isNumericListStr (jsTrim s)

/-- `isComplexColumnId` (`strategy-selector.js`): the `formula_` /
`lookup_` / `mirror_` id-prefix heuristic. -/
def isComplexColumnId (columnId : String) : Bool :=
  strStartsWith columnId "formula_" || strStartsWith columnId "lookup_" ||
    strStartsWith columnId "mirror_"

/-- Result of `analyzeFormulaDependencies`. -/
structure DepAnalysis where
  allComplex : Bool
  complexCount : Nat
  simpleCount : Nat
deriving DecidableEq, Repr

/-- `analyzeFormulaDependencies(dependencyColumnIds)`. -/
def analyzeFormulaDependencies (deps : List String) : DepAnalysis :=
  if deps = [] then ⟨false, 0, 0⟩
  else
    let complexCount := (deps.filter isComplexColumnId).length
    let simpleCount := (deps.filter (fun d => !isComplexColumnId d)).length
    ⟨simpleCount = 0 && complexCount > 0, complexCount, simpleCount⟩

/-- The empty-result default of `handle-mirror.js`: `0` exactly for the
(case-sensitive) aggregation names `sum`, `avg` and `count`; the empty
string otherwise. -/
def mirrorEmptyDefault (aggFunc : String) : Value :=
  if aggFunc = "sum" ∨ aggFunc = "avg" ∨ aggFunc = "count" then Value.num 0
  else Value.str ""

/-- Injection of resolver scalars into the evaluator universe (the entries
of the resolver's `columnValues` map). -/
def valToJS : Value → JSVal
  | Value.num q => JSVal.num q
  | Value.str s => JSVal.str s

/-- `const numResult = parseFloat(result); return isNaN(numResult) ?
result : numResult` applied to the evaluated formula string. -/
def parseFloatResult (s : String) : Value :=
  match jsParseFloat s with
  | some q => Value.num q
  | none => Value.str s

/-- String form of a resolver scalar inside `array.join(', ')`. -/
def valueJoinString : Value → String
  | Value.num q => jsNumToString q
  | Value.str s => s

/-- Resolves the given keys in order through `recur`, pairing each with
its value (the sequential image of a `Promise.all` fan-out; the per-item
`catch` handlers never fire over a total environment, where the only
non-success is divergence, which propagates). -/
def resolveDeps (recur : ResolutionKey → St → Option (Value × St)) :
    List ResolutionKey → St → Option (List (ResolutionKey × Value) × St)
  | [], st => some ([], st)
  | k :: rest, st =>
    match recur k st with
    | none => none
    | some (v, st1) =>
      match resolveDeps recur rest st1 with
      | none => none
      | some (vs, st2) => some ((k, v) :: vs, st2)

/-- The coordinator fan-out of `handleFormula`: requests every dependency
through `coordinatorRequest` in order. -/
def coordFetchAll (env : Env) (itemId : Int) :
    List String → St → List (String × Value) × St
  | [], st => ([], st)
  | d :: rest, st =>
    let p := coordinatorRequest env itemId d st
    let ps := coordFetchAll env itemId rest p.2
    ((d, p.1) :: ps.1, ps.2)

/-- Whether a coordinator value is used directly (`handleFormula`'s
classification): non-nullish and either a simple column, or a complex one
whose value is numeric. -/
def coordValueUsable (depColumnId : String) (v : Value) : Bool :=
  !isNullishDV (some v) &&
    (!isComplexColumnId depColumnId ||
      (isComplexColumnId depColumnId && isNumericValue v))

/-- `handleFormula` (`resolver/handle-formula.js`): a missing or empty
(falsy) formula warns and resolves to `0`; a dependency-free formula is
evaluated directly; otherwise dependencies are resolved — through the
coordinator exactly when the cache provides one (enhanced), more than one
dependency exists and at least one looks simple; usable coordinator values
are taken via `parseDisplayValue` and the rest recursed — and the formula
is evaluated over the resolved environment, numeric-parsing the result. -/
def handleFormula (cfg : Cfg) (env : Env)
    (recur : ResolutionKey → St → Option (Value × St))
    (boardId : String) (column : Column) (itemId : Int) (st : St) :
    Option (Value × St) :=
  match column.settings.formula with
  | none => some (Value.num 0, st)
  | some formula =>
    if formula = "" then some (Value.num 0, st)
    else
      let deps := extractColumnIds formula
      if deps = [] then
        some (parseFloatResult (evaluateFormula env.funcs formula []), st)
      else
        let depAnalysis := analyzeFormulaDependencies deps
        let useCoordinator :=
          cfg.enhanced && decide (deps.length > 1) && decide (depAnalysis.simpleCount > 0)
        if useCoordinator then
          let fetched := coordFetchAll env itemId deps st
          let direct := fetched.1.filterMap fun p =>
            if coordValueUsable p.1 p.2 then some (p.1, parseDisplayValue p.2) else none
          let needsRecursion := fetched.1.filterMap fun p =>
            if coordValueUsable p.1 p.2 then none else some p.1
          match resolveDeps recur (needsRecursion.map fun d => (boardId, d, itemId))
              fetched.2 with
          | none => none
          | some (pairs, st2) =>
            let envVals :=
              direct.map (fun p => (p.1, valToJS p.2)) ++
                pairs.map (fun p => (p.1.2.1, valToJS p.2))
            some (parseFloatResult (evaluateFormula env.funcs formula envVals), st2)
        else
          match resolveDeps recur (deps.map fun d => (boardId, d, itemId)) st with
          | none => none
          | some (pairs, st1) =>
            let envVals := pairs.map fun p => (p.1.2.1, valToJS p.2)
            some (parseFloatResult (evaluateFormula env.funcs formula envVals), st1)

/-- The recursion fallback of `handleMirror` (steps 3–5): parse the linked
items (board truthy, `parseInt` id truthy), recurse into
`displayed_linked_columns[0].column_ids[0]` on each, filter out empty
results, aggregate numbers through `applyAggregationFunction` or join text
by commas; every empty outcome yields the aggregation-dependent default. -/
def handleMirrorFallback (env : Env)
    (recur : ResolutionKey → St → Option (Value × St))
    (column : Column) (aggFunc : String) (items : List MirroredItem) (st : St) :
    Option (Value × St) :=
  if items = [] then some (mirrorEmptyDefault aggFunc, st)
  else
    let itemsNeedingRecursion := items.filterMap fun it =>
      match it.linked_item with
      | some li =>
        match jsParseInt li.id with
        | some n =>
          if it.linked_board_id ≠ "" ∧ n ≠ 0 then some (it.linked_board_id, n) else none
        | none => none
      | none => none
    if itemsNeedingRecursion = [] then some (mirrorEmptyDefault aggFunc, st)
    else
      match column.settings.displayed_linked_columns with
      | [] => some (mirrorEmptyDefault aggFunc, st)
      | target :: _ =>
        let targetColumnId := target.column_ids.headD "undefined"
        match resolveDeps recur
            (itemsNeedingRecursion.map fun p => (p.1, targetColumnId, p.2)) st with
        | none => none
        | some (pairs, st1) =>
          let validResults := (pairs.map Prod.snd).filter fun v => v ≠ Value.str ""
          if validResults = [] then some (mirrorEmptyDefault aggFunc, st1)
          else if validResults.all (fun v => match v with
              | Value.num _ => true
              | Value.str _ => false) then
            some (Value.num (applyAggregationFunction
              (validResults.filterMap fun v =>
                match v with
                | Value.num q => some q
                | Value.str _ => none) (some aggFunc)), st1)
          else some (Value.str (joinComma (validResults.map valueJoinString)), st1)

/-- `handleMirror` (`resolver/handle-mirror.js`): one deep query; the
display-value fast path — a truthy, non-`'null'` display string matching
the numeric-list pattern is aggregated; otherwise a `Number`-coercible
string returns that number; otherwise the string itself — and the
recursion fallback when the display value is unusable. -/
def handleMirror (env : Env)
    (recur : ResolutionKey → St → Option (Value × St))
    (column : Column) (itemId : Int) (st : St) : Option (Value × St) :=
  let aggFunc :=
    match column.settings.function with
    | some f => if f = "" then "sum" else f
    | none => "sum"
  let fetched := fetchMirrorDeep env itemId column.id st
  let md := fetched.1
  let st1 := fetched.2
  match md.display_value with
  | some d =>
    if d ≠ "" ∧ d ≠ "null" then
      if isNumericListStr d then
        some (Value.num (applyAggregationFunction (parseNumericValues d) (some aggFunc)),
          st1)
      else
        match jsNumberStr d with
        | some q => some (Value.num q, st1)
        | none => some (Value.str d, st1)
    else handleMirrorFallback env recur column aggFunc md.mirrored_items st1
  | none => handleMirrorFallback env recur column aggFunc md.mirrored_items st1

/-- Step 6 of `resolveColumnValueInternal`: cache the scalar (enhanced
cache only — `schemaCache.setCachedValue && …`). -/
def setCachedValue (cfg : Cfg) (key : ResolutionKey) (result : Value) (st : St) : St :=
  if cfg.enhanced then { st with valueCache := (key, result) :: st.valueCache } else st

/-- `resolveColumnValueInternal`: load the column (missing board, schema
error or missing column → `''`, uncached), dispatch — mirror: deep
handler; formula: the display-value probe is skipped exactly when all
dependencies look complex, a usable probe converts strictly
(`^-?\d+(\.\d+)?$` strings to numbers, other strings unchanged), else
`handleFormula`; leaf: display value with the same strict conversion, a
numeric second-chance fetch for `numbers`, else `''` — and cache the
result. -/
def resolveInternal (cfg : Cfg) (env : Env)
    (recur : ResolutionKey → St → Option (Value × St))
    (key : ResolutionKey) (st : St) : Option (Value × St) :=
  let fetched := getColumn env key.1 key.2.1 st
  let st1 := fetched.2
  match fetched.1 with
  | none => some (Value.str "", st1)
  | some column =>
    let next : Option (Value × St) :=
      if column.type = "mirror" then handleMirror env recur column key.2.2 st1
      else if column.type = "formula" then
        let shouldSkip :=
          match column.settings.formula with
          | some f =>
            if f = "" then false
            else (analyzeFormulaDependencies (extractColumnIds f)).allComplex
          | none => false
        if shouldSkip then handleFormula cfg env recur key.1 column key.2.2 st1
        else
          let probed := fetchDisplayValue env key.2.2 key.2.1 st1
          let st2 := probed.2
          match probed.1 with
          | none => handleFormula cfg env recur key.1 column key.2.2 st2
          | some v =>
            if isNullishDV (some v) then
              handleFormula cfg env recur key.1 column key.2.2 st2
            else
              match v with
              | Value.str s =>
                if isStrictNumeral s then some (Value.num ((jsParseFloat s).getD 0), st2)
                else some (Value.str s, st2)
              | Value.num q => some (Value.num q, st2)
      else
        let probed := fetchDisplayValue env key.2.2 key.2.1 st1
        let st2 := probed.2
        match probed.1 with
        | none =>
          if column.type = "numbers" then
            let nf := fetchNumericValue env key.2.2 key.2.1 st2
            some (Value.num nf.1, nf.2)
          else some (Value.str "", st2)
        | some v =>
          if isNullishDV (some v) then
            if column.type = "numbers" then
              let nf := fetchNumericValue env key.2.2 key.2.1 st2
              some (Value.num nf.1, nf.2)
            else some (Value.str "", st2)
          else
            match v with
            | Value.num q => some (Value.num q, st2)
            | Value.str s =>
              if isStrictNumeral s then some (Value.num ((jsParseFloat s).getD 0), st2)
              else some (Value.str s, st2)
    match next with
    | none => none
    | some (result, stN) => some (result, setCachedValue cfg key result stN)

/-- `resolveColumnValue` with explicit fuel bounding the recursion depth
(the public wrapper supplies a sufficient bound, and fuel exhaustion —
like awaiting an ancestor's promise — is `none`): the value-cache check,
the in-flight check — a hit means awaiting a promise that this very
computation must settle, which never completes — the visited-set cycle
check returning `0`, then the tracked internal resolution; the `finally`
removes the key from the pending set (the visited set is threaded
functionally, which performs its balanced add/delete). -/
def resolveFuel (cfg : Cfg) (env : Env) :
    Nat → ResolutionKey → Finset ResolutionKey → St → Option (Value × St)
  | 0, _, _, _ => none
  | fuel + 1, key, visited, st =>
    match (if cfg.enhanced then alookup key st.valueCache else none) with
    | some v => some (v, st)
    | none =>
      if cfg.enhanced ∧ key ∈ st.pending then none
      else if key ∈ visited then some (Value.num 0, st)
      else
        let visited2 := insert key visited
        let st2 := if cfg.enhanced then { st with pending := key :: st.pending } else st
        match resolveInternal cfg env
            (fun k s => resolveFuel cfg env fuel k visited2 s) key st2 with
        | none => none
        | some (result, st3) =>
          some (result,
            if cfg.enhanced then
              { st3 with pending := st3.pending.filter (fun k => k ≠ key) }
            else st3)

/-- All columns of all successfully-served schemas of the environment. -/
def envSchemaColumns (env : Env) : List Column :=
  env.schemas.bind fun p =>
    match p.2 with
    | .ok cols => cols
    | .error _ => []

/-- Board ids reachable through deep-mirror linked items. -/
def envBoards (env : Env) : List String :=
  env.mirrorDeep.bind fun p => p.2.mirrored_items.map (fun it => it.linked_board_id)

/-- Item ids reachable through deep-mirror linked items. -/
def envItems (env : Env) : List Int :=
  env.mirrorDeep.bind fun p =>
    p.2.mirrored_items.filterMap fun it =>
      it.linked_item.bind fun li => jsParseInt li.id

/-- Column ids reachable as formula dependencies or mirror targets of any
served column (including the `undefined` key of an empty target list). -/
def envCols (env : Env) : List String :=
  (envSchemaColumns env).bind fun col =>
    extractColumnIds (col.settings.formula.getD "") ++
      (match col.settings.displayed_linked_columns with
       | [] => []
       | t :: _ => [t.column_ids.headD "undefined"])

/-- The finite key space reachable from a starting key: every nested
resolution stays inside it. -/
def keySpace (env : Env) (key : ResolutionKey) : Finset ResolutionKey :=
  ((envBoards env).toFinset ∪ {key.1}) ×ˢ
    (((envCols env).toFinset ∪ {key.2.1}) ×ˢ ((envItems env).toFinset ∪ {key.2.2}))

/-- Fuel sufficient for any resolution starting at `key`. -/
def resolveBound (env : Env) (key : ResolutionKey) : Nat :=
  (keySpace env key).card + 1

/-- `resolveColumnValue({boardId, columnId, itemId, apiClient,
schemaCache})`: the public single-item entry point, starting from an empty
visited set. -/
def resolveColumnValue (cfg : Cfg) (env : Env) (key : ResolutionKey) (st : St) :
    Option (Value × St) :=
  resolveFuel cfg env (resolveBound env key) key ∅ st

/-!
## Invariants and concrete environments used by the verification
-/

/-- Environment of the C4 witness: an empty deep-mirror payload under the
`avg` aggregation. -/
def envC4 : Env :=
  { schemas := [("123", .ok [⟨"mirror1", "M", "mirror", { function := some "avg" }⟩])],
    mirrorDeep := [((100, "mirror1"), {})] }

/-- Environment of the C4 counterexample: the same empty mirror under the
`min` aggregation. -/
def envC4min : Env :=
  { schemas := [("123", .ok [⟨"mirror1", "M", "mirror", { function := some "min" }⟩])],
    mirrorDeep := [((100, "mirror1"), {})] }

/-- Environment of the C3 witness: three deep-mirror payloads — a numeric
list, a `Number()`-coercible exponent form, and plain text. -/
def envC3 : Env :=
  { mirrorDeep := [((100, "m1"), { display_value := some "10, 20" }),
                   ((101, "m1"), { display_value := some "1e3" }),
                   ((102, "m1"), { display_value := some "hello" })] }

/-- The mirror column of the C3 witness (aggregation `sum`). -/
def colC3 : Column := ⟨"m1", "M", "mirror", { function := some "sum" }⟩

/-- Environment of the C3 counterexample: a single number and an exponent
form behind a `count` mirror. -/
def envC3cx : Env :=
  { mirrorDeep := [((100, "m1"), { display_value := some "5" }),
                   ((101, "m1"), { display_value := some "1e3" })] }

/-- The mirror column of the C3 counterexample (aggregation `count`). -/
def colC3cx : Column := ⟨"m1", "M", "mirror", { function := some "count" }⟩

/-- Environment of the C9 witness and counterexample: a text column whose
display values exercise the strict pattern, three near-numeric forms, and
the literal `'null'`. -/
def envC9 : Env :=
  { schemas := [("123", .ok [⟨"t1", "T", "text", {}⟩])],
    displayItems := [((100, "t1"), { display_value := some "42.5" }),
                     ((101, "t1"), { display_value := some "1e3" }),
                     ((102, "t1"), { display_value := some " 42 " }),
                     ((103, "t1"), { display_value := some "1,000" }),
                     ((104, "t1"), { display_value := some "null" })] }

/-- Environment of the C8 witness and counterexample: a formula column
with the empty formula source. -/
def envC8 : Env :=
  { schemas := [("123", .ok [⟨"f1", "F", "formula", { formula := some "" }⟩])] }

/-- Environment of the C6 witness and counterexample: the schema query for
board `123` fails with a transport error. -/
def envC6 : Env := { schemas := [("123", .error ⟨"transport"⟩)] }

/-- Environment of the C5 witness and counterexample: a formula column
whose source `5 + 3` references no columns. -/
def envC5 : Env :=
  { schemas := [("123", .ok [⟨"f1", "F", "formula", { formula := some "5 + 3" }⟩])] }

/-- Environment of the C2 witness: a plain numbers column. -/
def envC2 : Env :=
  { schemas := [("123", .ok [⟨"numbers1", "N", "numbers", {}⟩])],
    displayItems := [((100, "numbers1"), { number := some 42 })] }

/-- The session state after the first resolve of the C2 witness. -/
def stC2 : St :=
  { schemaCache := [("123", [⟨"numbers1", "N", "numbers", {}⟩])],
    valueCache := [(("123", "numbers1", 100), Value.num 42)],
    remoteCalls := 2 }

/-- Environment of the C2 counterexample: the schema query for the board
always fails. -/
def envC2cx : Env := { schemas := [("123", .error ⟨"transport"⟩)] }

/-- Session invariant: every schema-cache entry was served by the
environment (the cache only ever stores successfully fetched boards). -/
def schemaOK (env : Env) (st : St) : Prop :=
  ∀ b cols, alookup b st.schemaCache = some cols →
    alookup b env.schemas = some (Except.ok cols)

/-- Totality of a recursion oracle over a key set: on every key of the
set, from every invariant-respecting state, it settles and preserves the
invariant. -/
def RecurTotal (env : Env) (S : Finset ResolutionKey)
    (recur : ResolutionKey → St → Option (Value × St)) : Prop :=
  ∀ k ∈ S, ∀ st, schemaOK env st →
    ∃ v st', recur k st = some (v, st') ∧ schemaOK env st'

/-- The cyclic two-formula environment: `f_a` concatenates onto `f_b` and
`f_b` back onto `f_a`. -/
def envC1 : Env :=
  { schemas := [("123", .ok
      [⟨"f_a", "A", "formula", { formula := some "\"Z\" & {f_b}" }⟩,
       ⟨"f_b", "B", "formula", { formula := some "\"Z\" & {f_a}" }⟩])] }

/-!
## General lemmas about the resolver pipeline
-/

theorem getColumn_cached (env : Env) {b : String} {st : St} {cols : List Column}
    (c : String) (h : alookup b st.schemaCache = some cols) :
    getColumn env b c st = (colsMapLookup c cols, st) := by
  simp [getColumn, h]

theorem getColumn_fetch {env : Env} {b : String} {st : St} {cols : List Column}
    (c : String) (h1 : alookup b st.schemaCache = none)
    (h2 : alookup b env.schemas = some (.ok cols)) :
    getColumn env b c st =
      (colsMapLookup c cols,
       { st with schemaCache := (b, cols) :: st.schemaCache,
                 remoteCalls := st.remoteCalls + 1 }) := by
  simp [getColumn, h1, h2]

theorem getColumn_error {env : Env} {b : String} {st : St} {e : RemoteErr}
    (c : String) (h1 : alookup b st.schemaCache = none)
    (h2 : alookup b env.schemas = some (.error e)) :
    getColumn env b c st = (none, { st with remoteCalls := st.remoteCalls + 1 }) := by
  simp [getColumn, h1, h2]

/-- Unfolding a top-level `resolveColumnValue` past its guards when the
value cache misses and the key is not in flight. -/
theorem resolveColumnValue_run (cfg : Cfg) (env : Env) (key : ResolutionKey) (st : St)
    (hvc : (if cfg.enhanced then alookup key st.valueCache else none) = none)
    (hp : ¬(cfg.enhanced ∧ key ∈ st.pending)) :
    resolveColumnValue cfg env key st =
      (match resolveInternal cfg env
          (fun k s => resolveFuel cfg env (keySpace env key).card k
            (insert key (∅ : Finset ResolutionKey)) s) key
          (if cfg.enhanced then { st with pending := key :: st.pending } else st) with
       | none => none
       | some (result, st3) =>
         some (result,
           if cfg.enhanced then
             { st3 with pending := st3.pending.filter (fun k => k ≠ key) }
           else st3)) := by
  show resolveFuel cfg env ((keySpace env key).card + 1) key ∅ st = _
  rw [resolveFuel, hvc]
  rw [if_neg hp, if_neg (Finset.not_mem_empty key)]

/-- A string matching the numeric-list pattern is non-empty. -/
theorem isNumericListStr_ne_empty {d : String} (h : isNumericListStr d = true) :
    d ≠ "" := by
  intro he
  rw [he] at h
  exact absurd h (by decide)

/-- The string `null` does not match the numeric-list pattern. -/
theorem isNumericListStr_ne_null {d : String} (h : isNumericListStr d = true) :
    d ≠ "null" := by
  intro he
  rw [he] at h
  exact absurd h (by decide)

/-!
## C10 — default aggregation is the sum
-/

/-- C10.  For every non-empty list of numbers, `applyAggregationFunction`
returns their sum for any function name outside
`{sum, avg, average, count, min, max}` (compared case-insensitively, as
the source lower-cases the name) — including the settings value `none`
and a missing name — and consequently a mirror column configured with
aggregation `none` whose fetched `display_value` is a comma-separated
numeric list resolves to the sum of the parsed numbers. -/
theorem C10_none_aggregation_sums :
    (∀ (values : List ℚ) (fn : Option String), values ≠ [] →
        strToLower (fn.getD "") ∉ (["sum", "avg", "average", "count", "min", "max"] : List String) →
        applyAggregationFunction values fn = values.foldl (· + ·) 0) ∧
    (∀ (env : Env) (st : St) (b c : String) (i : Int) (cols : List Column)
        (col : Column) (md : MirrorData) (d : String),
        alookup (b, c, i) st.valueCache = none →
        (b, c, i) ∉ st.pending →
        alookup b st.schemaCache = none →
        alookup b env.schemas = some (.ok cols) →
        colsMapLookup c cols = some col →
        col.type = "mirror" →
        col.settings.function = some "none" →
        alookup (i, col.id) env.mirrorDeep = some md →
        md.display_value = some d →
        isNumericListStr d = true →
        ∃ st', resolveColumnValue simpleCacheCfg env (b, c, i) st =
          some (Value.num ((parseNumericValues d).foldl (· + ·) 0), st')) := by
  constructor
  · intro values fn hne hmem
    have h1 : ¬(strToLower (fn.getD "") = "sum") := fun h => hmem (by rw [h]; simp)
    have h2 : ¬(strToLower (fn.getD "") = "avg" ∨ strToLower (fn.getD "") = "average") := by
      rintro (h | h) <;> exact hmem (by rw [h]; simp)
    have h3 : ¬(strToLower (fn.getD "") = "count") := fun h => hmem (by rw [h]; simp)
    have h4 : ¬(strToLower (fn.getD "") = "min") := fun h => hmem (by rw [h]; simp)
    have h5 : ¬(strToLower (fn.getD "") = "max") := fun h => hmem (by rw [h]; simp)
    rw [applyAggregationFunction, if_neg hne]
    simp only [if_neg h1, if_neg h2, if_neg h3, if_neg h4, if_neg h5]
  · intro env st b c i cols col md d hvc hp hsc henv hcol htype hfn hmd hdv hlist
    rw [resolveColumnValue_run simpleCacheCfg env (b, c, i) st
      (by simpa [simpleCacheCfg] using hvc) (by simp [simpleCacheCfg]; exact hp)]
    have hsc2 : alookup b
        (if simpleCacheCfg.enhanced then
          { st with pending := (b, c, i) :: st.pending } else st).schemaCache = none := by
      simpa [simpleCacheCfg] using hsc
    simp only [resolveInternal]
    rw [getColumn_fetch c hsc2 henv]
    simp only [hcol, htype, if_true, handleMirror, hfn, fetchMirrorDeep, hmd,
      Option.getD_some, hdv]
    rw [if_pos ⟨isNumericListStr_ne_empty hlist, isNumericListStr_ne_null hlist⟩]
    rw [if_neg (by decide : ¬("none" : String) = "")]
    rw [if_pos hlist]
    have hsum :
        applyAggregationFunction (parseNumericValues d) (some "none") =
          (parseNumericValues d).foldl (· + ·) 0 := by
      by_cases hnil : parseNumericValues d = []
      · rw [applyAggregationFunction, if_pos hnil, hnil]
        simp
      · rw [applyAggregationFunction, if_neg hnil]
        simp only [Option.getD_some]
        rw [if_neg (by decide), if_neg (by decide), if_neg (by decide),
          if_neg (by decide), if_neg (by decide)]
    rw [hsum]
    exact ⟨_, rfl⟩

/-- Witness for C10 at concrete inputs: the name `none` (and a missing
name) both fall outside the aggregation set, and a concrete mirror with
aggregation `none` and display value `10, 20` resolves to `30`. -/
theorem C10_none_aggregation_sums_witness :
    applyAggregationFunction [10, 20] (some "none") = 30 ∧
    applyAggregationFunction [10, 20] none = 30 ∧
    ∃ st', resolveColumnValue simpleCacheCfg
      { schemas := [("123", .ok [⟨"mirror1", "M", "mirror",
          { function := some "none",
            displayed_linked_columns := [⟨some "456", ["numbers1"]⟩] }⟩])],
        mirrorDeep := [((100, "mirror1"), { display_value := some "10, 20" })] }
      ("123", "mirror1", 100) {} = some (Value.num 30, st') := by
  refine ⟨?_, ?_, ?_⟩
  · have h := C10_none_aggregation_sums.1 [10, 20] (some "none") (by decide) (by decide)
    rw [h]
    norm_num
  · have h := C10_none_aggregation_sums.1 [10, 20] none (by decide) (by decide)
    rw [h]
    norm_num
  · have h := C10_none_aggregation_sums.2
      { schemas := [("123", .ok [⟨"mirror1", "M", "mirror",
          { function := some "none",
            displayed_linked_columns := [⟨some "456", ["numbers1"]⟩] }⟩])],
        mirrorDeep := [((100, "mirror1"), { display_value := some "10, 20" })] }
      {} "123" "mirror1" 100
      [⟨"mirror1", "M", "mirror",
        { function := some "none",
          displayed_linked_columns := [⟨some "456", ["numbers1"]⟩] }⟩]
      ⟨"mirror1", "M", "mirror",
        { function := some "none",
          displayed_linked_columns := [⟨some "456", ["numbers1"]⟩] }⟩
      { display_value := some "10, 20" } "10, 20"
      rfl (by simp [St.pending]) rfl rfl (by decide) rfl rfl rfl rfl (by decide)
    have he : (parseNumericValues "10, 20").foldl (· + ·) 0 = 30 := by
      with_unfolding_all rfl
    rw [he] at h
    exact h

/-!
## C4 — the empty-mirror default
-/

/-- C4.  A mirror column whose deep fetch yields no display value and no
linked items resolves to the numeric default `0` exactly when the
configured aggregation function is one of `sum`, `avg`, `count`
(case-sensitively), and to the empty string otherwise — in particular for
`min` and `max`. -/
theorem C4_mirror_empty_default :
    ∀ (env : Env) (st : St) (b c : String) (i : Int) (cols : List Column)
      (col : Column) (md : MirrorData) (f : String),
      alookup (b, c, i) st.valueCache = none →
      (b, c, i) ∉ st.pending →
      alookup b st.schemaCache = none →
      alookup b env.schemas = some (.ok cols) →
      colsMapLookup c cols = some col →
      col.type = "mirror" →
      col.settings.function = some f →
      f ≠ "" →
      alookup (i, col.id) env.mirrorDeep = some md →
      md.display_value = none →
      md.mirrored_items = [] →
      ∃ st', resolveColumnValue simpleCacheCfg env (b, c, i) st =
        some ((if f = "sum" ∨ f = "avg" ∨ f = "count" then Value.num 0 else Value.str ""),
          st') := by
  intro env st b c i cols col md f hvc hp hsc henv hcol htype hfn hfne hmd hdvn hmi
  rw [resolveColumnValue_run simpleCacheCfg env (b, c, i) st
    (by simpa [simpleCacheCfg] using hvc) (by simp [simpleCacheCfg]; exact hp)]
  have hsc2 : alookup b
      (if simpleCacheCfg.enhanced then
        { st with pending := (b, c, i) :: st.pending } else st).schemaCache = none := by
    simpa [simpleCacheCfg] using hsc
  simp only [resolveInternal]
  rw [getColumn_fetch c hsc2 henv]
  simp only [hcol, htype, if_true, handleMirror, hfn, fetchMirrorDeep, hmd,
    Option.getD_some, hdvn, hmi]
  rw [if_neg hfne]
  simp only [handleMirrorFallback, if_pos rfl, mirrorEmptyDefault]
  exact ⟨_, rfl⟩


/-- Witness for C4: aggregation `avg` over an empty mirror resolves to the
numeric default `0`. -/
theorem C4_mirror_empty_default_witness :
    ∃ st', resolveColumnValue simpleCacheCfg envC4 ("123", "mirror1", 100) {} =
      some (Value.num 0, st') := by
  obtain ⟨st', h⟩ := C4_mirror_empty_default envC4 {} "123" "mirror1" 100
    [⟨"mirror1", "M", "mirror", { function := some "avg" }⟩]
    ⟨"mirror1", "M", "mirror", { function := some "avg" }⟩ {} "avg"
    rfl (by simp) rfl rfl (by decide) rfl rfl (by decide) rfl rfl rfl
  exact ⟨st', by simpa using h⟩


/-- Counterexample to C4 as specified: the spec counts `min` (and `max`)
among the numeric aggregations defaulting to `0`, but an empty mirror
under `min` resolves to the empty string. -/
theorem C4_mirror_empty_default_counterexample :
    (resolveColumnValue simpleCacheCfg envC4min ("123", "mirror1", 100) {}).map
        (fun p => p.1) = some (Value.str "") ∧
      Value.str "" ≠ Value.num 0 := by
  constructor
  · with_unfolding_all rfl
  · decide

/-!
## C3 — the mirror display-value fast path
-/

/-- C3.  For a mirror column whose deep fetch returns a usable (non-empty,
non-`'null'`) display value: a string matching the comma-separated numeric
list pattern — which includes single numbers — is parsed and aggregated
with the configured function; otherwise a `Number()`-coercible string
yields that number; any remaining string is returned as text. -/
theorem C3_mirror_display_fast_path :
    ∀ (env : Env) (recur : ResolutionKey → St → Option (Value × St))
      (col : Column) (i : Int) (st : St) (md : MirrorData) (f d : String),
      col.settings.function = some f → f ≠ "" →
      alookup (i, col.id) env.mirrorDeep = some md →
      md.display_value = some d →
      d ≠ "" → d ≠ "null" →
      (isNumericListStr d = true →
        handleMirror env recur col i st =
          some (Value.num (applyAggregationFunction (parseNumericValues d) (some f)),
            { st with remoteCalls := st.remoteCalls + 1 })) ∧
      (∀ q, isNumericListStr d = false → jsNumberStr d = some q →
        handleMirror env recur col i st =
          some (Value.num q, { st with remoteCalls := st.remoteCalls + 1 })) ∧
      (isNumericListStr d = false → jsNumberStr d = none →
        handleMirror env recur col i st =
          some (Value.str d, { st with remoteCalls := st.remoteCalls + 1 })) := by
  intro env recur col i st md f d hfn hfne hmd hdv hne hnn
  refine ⟨?_, ?_, ?_⟩
  · intro hlist
    simp only [handleMirror, hfn, fetchMirrorDeep, hmd, Option.getD_some, hdv]
    rw [if_neg hfne, if_pos ⟨hne, hnn⟩, if_pos hlist]
  · intro q hlist hq
    simp only [handleMirror, hfn, fetchMirrorDeep, hmd, Option.getD_some, hdv]
    rw [if_neg hfne, if_pos ⟨hne, hnn⟩,
      if_neg (by rw [hlist]; exact Bool.false_ne_true)]
    simp only [hq]
  · intro hlist hq
    simp only [handleMirror, hfn, fetchMirrorDeep, hmd, Option.getD_some, hdv]
    rw [if_neg hfne, if_pos ⟨hne, hnn⟩,
      if_neg (by rw [hlist]; exact Bool.false_ne_true)]
    simp only [hq]



/-- Witness for C3 at its three concrete branches. -/
theorem C3_mirror_display_fast_path_witness :
    handleMirror envC3 (fun _ _ => none) colC3 100 {} =
        some (Value.num 30, { remoteCalls := 1 }) ∧
      handleMirror envC3 (fun _ _ => none) colC3 101 {} =
        some (Value.num 1000, { remoteCalls := 1 }) ∧
      handleMirror envC3 (fun _ _ => none) colC3 102 {} =
        some (Value.str "hello", { remoteCalls := 1 }) := by
  refine ⟨?_, ?_, ?_⟩
  · have h := (C3_mirror_display_fast_path envC3 (fun _ _ => none) colC3 100 {}
      { display_value := some "10, 20" } "sum" "10, 20"
      rfl (by decide) rfl rfl (by decide) (by decide)).1 (by with_unfolding_all rfl)
    rw [h]
    with_unfolding_all rfl
  · have h := (C3_mirror_display_fast_path envC3 (fun _ _ => none) colC3 101 {}
      { display_value := some "1e3" } "sum" "1e3"
      rfl (by decide) rfl rfl (by decide) (by decide)).2.1 1000
      (by with_unfolding_all rfl) (by with_unfolding_all rfl)
    rw [h]
  · have h := (C3_mirror_display_fast_path envC3 (fun _ _ => none) colC3 102 {}
      { display_value := some "hello" } "sum" "hello"
      rfl (by decide) rfl rfl (by decide) (by decide)).2.2
      (by with_unfolding_all rfl) (by with_unfolding_all rfl)
    rw [h]



/-- Counterexample to C3 as specified: a single-number display value `5`
is not returned as that number — the numeric-list pattern matches single
numbers, so the `count` aggregation turns it into `1`; and the
`Number()`-coercible string `1e3` is not returned as text but as `1000`. -/
theorem C3_mirror_display_fast_path_counterexample :
    handleMirror envC3cx (fun _ _ => none) colC3cx 100 {} =
        some (Value.num 1, { remoteCalls := 1 }) ∧
      (Value.num 1 : Value) ≠ Value.num 5 ∧
      handleMirror envC3cx (fun _ _ => none) colC3cx 101 {} =
        some (Value.num 1000, { remoteCalls := 1 }) ∧
      (Value.num 1000 : Value) ≠ Value.str "1e3" := by
  refine ⟨?_, ?_, ?_, ?_⟩
  · with_unfolding_all rfl
  · simp
  · with_unfolding_all rfl
  · simp

/-!
## C9 — strict numeral conversion at the resolve boundary
-/

/-- C9.  On the leaf path (a column that is neither a mirror nor a
formula), a fetched display value is converted to a number exactly when it
matches the strict pattern `^-?\d+(\.\d+)?$`; every other non-empty
string except the literal `'null'` is returned as text unchanged.  The
string `'null'` is treated as missing and yields the empty string (on
non-`numbers` columns). -/
theorem C9_strict_numeral_boundary :
    ∀ (env : Env) (st : St) (b c : String) (i : Int) (cols : List Column)
      (col : Column) (cv : RawColumnValue) (s : String),
      alookup (b, c, i) st.valueCache = none →
      (b, c, i) ∉ st.pending →
      alookup b st.schemaCache = none →
      alookup b env.schemas = some (.ok cols) →
      colsMapLookup c cols = some col →
      col.type ≠ "mirror" →
      col.type ≠ "formula" →
      alookup (i, c) env.displayItems = some cv →
      cv.display_value = some s →
      (s ≠ "" → s ≠ "null" →
        ∃ st', resolveColumnValue simpleCacheCfg env (b, c, i) st =
          some ((if isStrictNumeral s then Value.num ((jsParseFloat s).getD 0)
            else Value.str s), st')) ∧
      (s = "null" → col.type ≠ "numbers" →
        ∃ st', resolveColumnValue simpleCacheCfg env (b, c, i) st =
          some (Value.str "", st')) := by
  intro env st b c i cols col cv s hvc hp hsc henv hcol htm htf hdi hdv
  have hrun := resolveColumnValue_run simpleCacheCfg env (b, c, i) st
    (by simpa [simpleCacheCfg] using hvc) (by simp [simpleCacheCfg]; exact hp)
  have hsc2 : alookup b
      (if simpleCacheCfg.enhanced then
        { st with pending := (b, c, i) :: st.pending } else st).schemaCache = none := by
    simpa [simpleCacheCfg] using hsc
  constructor
  · intro hne hnn
    rw [hrun]
    simp only [resolveInternal]
    rw [getColumn_fetch c hsc2 henv]
    simp only [hcol]
    rw [if_neg htm, if_neg htf]
    simp only [fetchDisplayValue, hdi, hdv]
    rw [if_neg (by simp [isNullishDV, hne, hnn])]
    cases hs : isStrictNumeral s <;> exact ⟨_, rfl⟩
  · intro hnull htn
    subst hnull
    rw [hrun]
    simp only [resolveInternal]
    rw [getColumn_fetch c hsc2 henv]
    simp only [hcol]
    rw [if_neg htm, if_neg htf]
    simp only [fetchDisplayValue, hdi, hdv]
    rw [if_pos (by simp [isNullishDV]), if_neg htn]
    exact ⟨_, rfl⟩


/-- Witness for C9: `42.5` converts, `1e3` / `\x20;42 ` / `1,000` stay
text, `'null'` empties. -/
theorem C9_strict_numeral_boundary_witness :
    (∃ st', resolveColumnValue simpleCacheCfg envC9 ("123", "t1", 100) {} =
      some (Value.num (85 / 2), st')) ∧
    (∃ st', resolveColumnValue simpleCacheCfg envC9 ("123", "t1", 101) {} =
      some (Value.str "1e3", st')) ∧
    (∃ st', resolveColumnValue simpleCacheCfg envC9 ("123", "t1", 102) {} =
      some (Value.str " 42 ", st')) ∧
    (∃ st', resolveColumnValue simpleCacheCfg envC9 ("123", "t1", 103) {} =
      some (Value.str "1,000", st')) ∧
    (∃ st', resolveColumnValue simpleCacheCfg envC9 ("123", "t1", 104) {} =
      some (Value.str "", st')) := by
  refine ⟨?_, ?_, ?_, ?_, ?_⟩
  · obtain ⟨st', h⟩ := (C9_strict_numeral_boundary envC9 {} "123" "t1" 100
      [⟨"t1", "T", "text", {}⟩] ⟨"t1", "T", "text", {}⟩
      { display_value := some "42.5" } "42.5"
      rfl (by simp) rfl rfl (by decide) (by decide) (by decide) rfl rfl).1
      (by decide) (by decide)
    rw [if_pos (by decide : isStrictNumeral "42.5" = true)] at h
    have hv : ((jsParseFloat "42.5").getD 0 : ℚ) = 85 / 2 := by
      with_unfolding_all rfl
    rw [hv] at h
    exact ⟨st', h⟩
  · obtain ⟨st', h⟩ := (C9_strict_numeral_boundary envC9 {} "123" "t1" 101
      [⟨"t1", "T", "text", {}⟩] ⟨"t1", "T", "text", {}⟩
      { display_value := some "1e3" } "1e3"
      rfl (by simp) rfl rfl (by decide) (by decide) (by decide) rfl rfl).1
      (by decide) (by decide)
    rw [if_neg (by decide : ¬isStrictNumeral "1e3" = true)] at h
    exact ⟨st', h⟩
  · obtain ⟨st', h⟩ := (C9_strict_numeral_boundary envC9 {} "123" "t1" 102
      [⟨"t1", "T", "text", {}⟩] ⟨"t1", "T", "text", {}⟩
      { display_value := some " 42 " } " 42 "
      rfl (by simp) rfl rfl (by decide) (by decide) (by decide) rfl rfl).1
      (by decide) (by decide)
    rw [if_neg (by decide : ¬isStrictNumeral " 42 " = true)] at h
    exact ⟨st', h⟩
  · obtain ⟨st', h⟩ := (C9_strict_numeral_boundary envC9 {} "123" "t1" 103
      [⟨"t1", "T", "text", {}⟩] ⟨"t1", "T", "text", {}⟩
      { display_value := some "1,000" } "1,000"
      rfl (by simp) rfl rfl (by decide) (by decide) (by decide) rfl rfl).1
      (by decide) (by decide)
    rw [if_neg (by decide : ¬isStrictNumeral "1,000" = true)] at h
    exact ⟨st', h⟩
  · obtain ⟨st', h⟩ := (C9_strict_numeral_boundary envC9 {} "123" "t1" 104
      [⟨"t1", "T", "text", {}⟩] ⟨"t1", "T", "text", {}⟩
      { display_value := some "null" } "null"
      rfl (by simp) rfl rfl (by decide) (by decide) (by decide) rfl rfl).2
      rfl (by decide)
    exact ⟨st', h⟩

/-- Counterexample to C9 as specified: the non-empty display string
`'null'` does not come back as the text `'null'` — it resolves to the
empty string. -/
theorem C9_strict_numeral_boundary_counterexample :
    (resolveColumnValue simpleCacheCfg envC9 ("123", "t1", 104) {}).map
        (fun p => p.1) = some (Value.str "") ∧
      Value.str "" ≠ Value.str "null" := by
  constructor
  · with_unfolding_all rfl
  · decide

/-!
## C8 — the empty formula
-/

/-- C8.  A formula column whose formula source is the empty string
resolves to the numeral `0` (the handler treats a falsy formula as `0`
before the parser is ever consulted), even though the parser itself maps
empty input to a literal empty string. -/
theorem C8_empty_formula :
    (∀ (env : Env) (st : St) (b c : String) (i : Int) (cols : List Column)
        (col : Column),
        alookup (b, c, i) st.valueCache = none →
        (b, c, i) ∉ st.pending →
        alookup b st.schemaCache = none →
        alookup b env.schemas = some (.ok cols) →
        colsMapLookup c cols = some col →
        col.type = "formula" →
        col.settings.formula = some "" →
        alookup (i, c) env.displayItems = none →
        ∃ st', resolveColumnValue simpleCacheCfg env (b, c, i) st =
          some (Value.num 0, st')) ∧
      parseFormula "" = .ok (Node.literal (JSVal.str "") "string") := by
  constructor
  · intro env st b c i cols col hvc hp hsc henv hcol htype hf hdi
    rw [resolveColumnValue_run simpleCacheCfg env (b, c, i) st
      (by simpa [simpleCacheCfg] using hvc) (by simp [simpleCacheCfg]; exact hp)]
    have hsc2 : alookup b
        (if simpleCacheCfg.enhanced then
          { st with pending := (b, c, i) :: st.pending } else st).schemaCache = none := by
      simpa [simpleCacheCfg] using hsc
    simp only [resolveInternal]
    rw [getColumn_fetch c hsc2 henv]
    simp only [hcol, htype, hf, if_true, if_pos rfl]
    simp only [fetchDisplayValue, hdi]
    simp only [handleFormula, hf, if_pos rfl]
    exact ⟨_, rfl⟩
  · rfl


/-- Witness for C8 at the concrete empty-formula column. -/
theorem C8_empty_formula_witness :
    ∃ st', resolveColumnValue simpleCacheCfg envC8 ("123", "f1", 100) {} =
      some (Value.num 0, st') :=
  C8_empty_formula.1 envC8 {} "123" "f1" 100
    [⟨"f1", "F", "formula", { formula := some "" }⟩]
    ⟨"f1", "F", "formula", { formula := some "" }⟩
    rfl (by simp) rfl rfl (by decide) rfl rfl rfl

/-- Counterexample to C8 as specified: the empty formula resolves to the
numeral `0`, not to the empty scalar. -/
theorem C8_empty_formula_counterexample :
    (resolveColumnValue simpleCacheCfg envC8 ("123", "f1", 100) {}).map
        (fun p => p.1) = some (Value.num 0) ∧
      Value.num 0 ≠ Value.str "" := by
  constructor
  · with_unfolding_all rfl
  · decide

/-!
## C6 — transport errors are swallowed
-/

/-- C6.  When the platform surfaces a transport error for a board schema
query during a top-level resolve, the error does not propagate: the
`getColumn` of the session cache catches and logs it and serves a `null`
column, and resolve silently converts that into the empty-string scalar
(uncached), after exactly the one failed remote call — the failing schema
query becomes a scalar result and its cause is lost.  This covers the
schema query, the only query the session caches guard with a `catch`; the
value-level queries are not guarded on the resolve path. -/
theorem C6_remote_errors_swallowed :
    ∀ (env : Env) (st : St) (b c : String) (i : Int) (e : RemoteErr),
      alookup (b, c, i) st.valueCache = none →
      (b, c, i) ∉ st.pending →
      alookup b st.schemaCache = none →
      alookup b env.schemas = some (.error e) →
      ∃ st', resolveColumnValue simpleCacheCfg env (b, c, i) st =
        some (Value.str "", st') ∧
        st'.remoteCalls = st.remoteCalls + 1 ∧
        st'.valueCache = st.valueCache := by
  intro env st b c i e hvc hp hsc henv
  rw [resolveColumnValue_run simpleCacheCfg env (b, c, i) st
    (by simpa [simpleCacheCfg] using hvc) (by simp [simpleCacheCfg]; exact hp)]
  have hsc2 : alookup b
      (if simpleCacheCfg.enhanced then
        { st with pending := (b, c, i) :: st.pending } else st).schemaCache = none := by
    simpa [simpleCacheCfg] using hsc
  simp only [resolveInternal]
  rw [getColumn_error c hsc2 henv]
  exact ⟨_, rfl, rfl, rfl⟩


/-- Witness for C6: the failing board resolves to the empty string after
one remote call. -/
theorem C6_remote_errors_swallowed_witness :
    ∃ st', resolveColumnValue simpleCacheCfg envC6 ("123", "c1", 1) {} =
      some (Value.str "", st') ∧ st'.remoteCalls = 0 + 1 ∧
      st'.valueCache = ([] : List (ResolutionKey × Value)) :=
  C6_remote_errors_swallowed envC6 {} "123" "c1" 1 ⟨"transport"⟩
    rfl (by simp) rfl rfl

/-- Counterexample to C6 as specified: the schema-query transport error
(cause `transport`) is not propagated — the resolve settles with the
scalar `""` instead of surfacing a `RemoteError`. -/
theorem C6_remote_errors_swallowed_counterexample :
    (resolveColumnValue simpleCacheCfg envC6 ("123", "c1", 1) {}).map
        (fun p => p.1) = some (Value.str "") ∧
      (resolveColumnValue simpleCacheCfg envC6 ("123", "c1", 1) {}).isSome = true := by
  constructor
  · with_unfolding_all rfl
  · with_unfolding_all rfl

/-!
## C5 — remote calls of a dependency-free formula
-/

/-- The display-value probe always costs exactly one remote call. -/
theorem fetchDisplayValue_snd (env : Env) (i : Int) (c : String) (st : St) :
    (fetchDisplayValue env i c st).2 = { st with remoteCalls := st.remoteCalls + 1 } := by
  simp only [fetchDisplayValue]
  repeat' split
  all_goals rfl

/-- A dependency-free formula is evaluated in place, with no dependency
resolution and no state change. -/
theorem handleFormula_nodeps (cfg : Cfg) (env : Env)
    (recur : ResolutionKey → St → Option (Value × St))
    (b : String) (col : Column) (i : Int) (st : St) (f : String)
    (hf : col.settings.formula = some f) (hne : f ≠ "")
    (hdeps : extractColumnIds f = []) :
    handleFormula cfg env recur b col i st =
      some (parseFloatResult (evaluateFormula env.funcs f []), st) := by
  simp only [handleFormula, hf]
  rw [if_neg hne, hdeps, if_pos rfl]

/-- On a formula column with a dependency-free source, the internal
resolution performs the display probe (one remote call beyond the column
fetch) and settles without recursion. -/
theorem resolveInternal_formula_nodeps (cfg : Cfg) (env : Env)
    (recur : ResolutionKey → St → Option (Value × St))
    (b c : String) (i : Int) (st st1 : St) (col : Column) (f : String)
    (hget : getColumn env b c st = (some col, st1))
    (htype : col.type = "formula")
    (hf : col.settings.formula = some f) (hne : f ≠ "")
    (hdeps : extractColumnIds f = []) :
    ∃ v st2, resolveInternal cfg env recur (b, c, i) st =
      some (v, setCachedValue cfg (b, c, i) v st2) ∧
      st2.remoteCalls = st1.remoteCalls + 1 := by
  have hskip : (analyzeFormulaDependencies (extractColumnIds f)).allComplex = false := by
    rw [hdeps]; rfl
  simp only [resolveInternal, hget, hf]
  rw [if_neg (show ¬col.type = "mirror" by rw [htype]; decide), if_pos htype,
    if_neg hne, hskip, if_neg Bool.false_ne_true]
  rw [fetchDisplayValue_snd]
  rcases hpr : (fetchDisplayValue env i c st1).1 with _ | v
  · rw [handleFormula_nodeps cfg env recur b col i _ f hf hne hdeps]
    exact ⟨_, _, rfl, rfl⟩
  · simp only []
    by_cases hn : isNullishDV (some v) = true
    · rw [if_pos hn, handleFormula_nodeps cfg env recur b col i _ f hf hne hdeps]
      exact ⟨_, _, rfl, rfl⟩
    · rw [if_neg hn]
      rcases v with q | s
      · exact ⟨_, _, rfl, rfl⟩
      · simp only []
        cases hs : isStrictNumeral s
        · exact ⟨_, _, rfl, rfl⟩
        · exact ⟨_, _, rfl, rfl⟩

/-- C5.  Resolving a formula column whose source has no column references
issues exactly two remote calls — the board schema fetch and the display
probe — and exactly one (the probe) when the board schema is already
cached; never fewer. -/
theorem C5_depfree_formula_remote_calls :
    (∀ (env : Env) (st : St) (b c : String) (i : Int) (cols : List Column)
        (col : Column) (f : String),
        alookup (b, c, i) st.valueCache = none →
        (b, c, i) ∉ st.pending →
        alookup b st.schemaCache = none →
        alookup b env.schemas = some (.ok cols) →
        colsMapLookup c cols = some col →
        col.type = "formula" →
        col.settings.formula = some f → f ≠ "" →
        extractColumnIds f = [] →
        ∃ v st', resolveColumnValue simpleCacheCfg env (b, c, i) st =
          some (v, st') ∧ st'.remoteCalls = st.remoteCalls + 2) ∧
    (∀ (env : Env) (st : St) (b c : String) (i : Int) (cols : List Column)
        (col : Column) (f : String),
        alookup (b, c, i) st.valueCache = none →
        (b, c, i) ∉ st.pending →
        alookup b st.schemaCache = some cols →
        colsMapLookup c cols = some col →
        col.type = "formula" →
        col.settings.formula = some f → f ≠ "" →
        extractColumnIds f = [] →
        ∃ v st', resolveColumnValue simpleCacheCfg env (b, c, i) st =
          some (v, st') ∧ st'.remoteCalls = st.remoteCalls + 1) := by
  constructor
  · intro env st b c i cols col f hvc hp hsc henv hcol htype hf hne hdeps
    rw [resolveColumnValue_run simpleCacheCfg env (b, c, i) st
      (by simpa [simpleCacheCfg] using hvc) (by simp [simpleCacheCfg]; exact hp)]
    have hsc2 : alookup b
        (if simpleCacheCfg.enhanced then
          { st with pending := (b, c, i) :: st.pending } else st).schemaCache = none := by
      simpa [simpleCacheCfg] using hsc
    have hget := getColumn_fetch c hsc2 henv
    rw [hcol] at hget
    obtain ⟨v, stN, hri, hcalls⟩ := resolveInternal_formula_nodeps simpleCacheCfg env _
      b c i _ _ col f hget htype hf hne hdeps
    rw [hri]
    refine ⟨v, _, rfl, ?_⟩
    show stN.remoteCalls = st.remoteCalls + 2
    rw [hcalls]
    simp [simpleCacheCfg]
  · intro env st b c i cols col f hvc hp hsc hcol htype hf hne hdeps
    rw [resolveColumnValue_run simpleCacheCfg env (b, c, i) st
      (by simpa [simpleCacheCfg] using hvc) (by simp [simpleCacheCfg]; exact hp)]
    have hsc2 : alookup b
        (if simpleCacheCfg.enhanced then
          { st with pending := (b, c, i) :: st.pending } else st).schemaCache =
        some cols := by
      simpa [simpleCacheCfg] using hsc
    have hget := getColumn_cached env c hsc2
    rw [hcol] at hget
    obtain ⟨v, stN, hri, hcalls⟩ := resolveInternal_formula_nodeps simpleCacheCfg env _
      b c i _ _ col f hget htype hf hne hdeps
    rw [hri]
    refine ⟨v, _, rfl, ?_⟩
    show stN.remoteCalls = st.remoteCalls + 1
    rw [hcalls]
    simp [simpleCacheCfg]


/-- Witness for C5: two calls from a cold cache, one with the schema
pre-cached. -/
theorem C5_depfree_formula_remote_calls_witness :
    (∃ v st', resolveColumnValue simpleCacheCfg envC5 ("123", "f1", 100) {} =
      some (v, st') ∧ st'.remoteCalls = 0 + 2) ∧
    (∃ v st', resolveColumnValue simpleCacheCfg envC5 ("123", "f1", 100)
        { schemaCache := [("123", [⟨"f1", "F", "formula",
          { formula := some "5 + 3" }⟩])] } =
      some (v, st') ∧ st'.remoteCalls = 0 + 1) := by
  constructor
  · exact C5_depfree_formula_remote_calls.1 envC5 {} "123" "f1" 100
      [⟨"f1", "F", "formula", { formula := some "5 + 3" }⟩]
      ⟨"f1", "F", "formula", { formula := some "5 + 3" }⟩ "5 + 3"
      rfl (by simp) rfl rfl (by decide) rfl rfl (by decide)
      (by with_unfolding_all rfl)
  · exact C5_depfree_formula_remote_calls.2 envC5
      { schemaCache := [("123", [⟨"f1", "F", "formula",
          { formula := some "5 + 3" }⟩])] } "123" "f1" 100
      [⟨"f1", "F", "formula", { formula := some "5 + 3" }⟩]
      ⟨"f1", "F", "formula", { formula := some "5 + 3" }⟩ "5 + 3"
      rfl (by simp) rfl (by decide) rfl rfl (by decide)
      (by with_unfolding_all rfl)

/-- Counterexample to C5 as specified: even from a cold cache the
dependency-free formula issues two remote calls (schema fetch plus the
display probe), not at most one; with the schema cached it still issues
the probe call, not zero. -/
theorem C5_depfree_formula_remote_calls_counterexample :
    (resolveColumnValue simpleCacheCfg envC5 ("123", "f1", 100) {}).map
        (fun p => p.2.remoteCalls) = some 2 ∧
      ¬(2 ≤ 1) ∧
      (resolveColumnValue simpleCacheCfg envC5 ("123", "f1", 100)
          { schemaCache := [("123", [⟨"f1", "F", "formula",
            { formula := some "5 + 3" }⟩])] }).map
        (fun p => p.2.remoteCalls) = some 1 ∧
      (1 : Nat) ≠ 0 := by
  refine ⟨?_, by decide, ?_, by decide⟩
  · with_unfolding_all rfl
  · with_unfolding_all rfl

/-!
## C2 — idempotence of a resolved key
-/

/-- `alookup` hits the head entry for its own key. -/
theorem alookup_cons_self {α β : Type} [DecidableEq α] (k : α) (v : β)
    (l : List (α × β)) : alookup k ((k, v) :: l) = some v := by
  simp [alookup]

/-- A value-cache hit answers immediately, leaving the session state
untouched. -/
theorem resolveColumnValue_hit (env : Env) (k : ResolutionKey) (st : St) (v : Value)
    (h : alookup k st.valueCache = some v) :
    resolveColumnValue simpleCacheCfg env k st = some (v, st) := by
  show resolveFuel simpleCacheCfg env ((keySpace env k).card + 1) k ∅ st = _
  rw [resolveFuel]
  simp [simpleCacheCfg, h]

/-- Whatever scalar the internal resolution produces for a servable column
is recorded in the enhanced value cache of the resulting state. -/
theorem resolveInternal_caches (env : Env)
    (recur : ResolutionKey → St → Option (Value × St))
    (b c : String) (i : Int) (cols : List Column) (col : Column)
    (s s3 : St) (r : Value)
    (hsc : alookup b s.schemaCache = none)
    (henv : alookup b env.schemas = some (.ok cols))
    (hcol : colsMapLookup c cols = some col)
    (hri : resolveInternal simpleCacheCfg env recur (b, c, i) s = some (r, s3)) :
    alookup (b, c, i) s3.valueCache = some r := by
  have hget := getColumn_fetch c hsc henv
  rw [hcol] at hget
  simp only [resolveInternal, hget] at hri
  split at hri
  · simp at hri
  · rw [Option.some.injEq, Prod.mk.injEq] at hri
    obtain ⟨h1, h2⟩ := hri
    subst h1
    rw [← h2]
    simp [setCachedValue, simpleCacheCfg, alookup]

/-- C2.  Once a key backed by a servable column has been resolved, a
further resolve call on the same key answers from the value cache: it
returns the identical scalar and the identical session state, so no
further remote calls are issued. -/
theorem C2_resolved_key_idempotent :
    ∀ (env : Env) (st st' : St) (b c : String) (i : Int) (cols : List Column)
      (col : Column) (v : Value),
      alookup b st.schemaCache = none →
      alookup b env.schemas = some (.ok cols) →
      colsMapLookup c cols = some col →
      resolveColumnValue simpleCacheCfg env (b, c, i) st = some (v, st') →
      resolveColumnValue simpleCacheCfg env (b, c, i) st' = some (v, st') := by
  intro env st st' b c i cols col v hsc henv hcol hsome
  have hcache : alookup (b, c, i) st'.valueCache = some v := by
    rcases hvc : alookup (b, c, i) st.valueCache with _ | w
    · by_cases hp : (b, c, i) ∈ st.pending
      · have hnone : resolveColumnValue simpleCacheCfg env (b, c, i) st = none := by
          show resolveFuel simpleCacheCfg env ((keySpace env (b, c, i)).card + 1)
            (b, c, i) ∅ st = none
          rw [resolveFuel]
          simp [simpleCacheCfg, hvc, hp]
        rw [hnone] at hsome
        cases hsome
      · rw [resolveColumnValue_run simpleCacheCfg env (b, c, i) st
          (by simpa [simpleCacheCfg] using hvc)
          (by simp [simpleCacheCfg]; exact hp)] at hsome
        split at hsome
        · cases hsome
        · rename_i result st3 heq
          rw [Option.some.injEq, Prod.mk.injEq] at hsome
          obtain ⟨h1, h2⟩ := hsome
          have hc := resolveInternal_caches env _ b c i cols col _ st3 result
            (by simpa [simpleCacheCfg] using hsc) henv hcol heq
          rw [← h2, ← h1]
          simpa [simpleCacheCfg] using hc
    · have h1 := resolveColumnValue_hit env (b, c, i) st w hvc
      rw [h1, Option.some.injEq, Prod.mk.injEq] at hsome
      obtain ⟨hv, hst⟩ := hsome
      subst hv
      rw [← hst]
      exact hvc
  exact resolveColumnValue_hit env (b, c, i) st' v hcache



/-- Witness for C2: re-resolving the already-resolved numbers column
returns the same `42` and leaves the state (hence the remote-call count)
unchanged. -/
theorem C2_resolved_key_idempotent_witness :
    resolveColumnValue simpleCacheCfg envC2 ("123", "numbers1", 100) stC2 =
      some (Value.num 42, stC2) :=
  C2_resolved_key_idempotent envC2 {} stC2 "123" "numbers1" 100
    [⟨"numbers1", "N", "numbers", {}⟩] ⟨"numbers1", "N", "numbers", {}⟩
    (Value.num 42) rfl rfl (by decide) (by with_unfolding_all rfl)


/-- Counterexample to C2 as specified: a key that resolved to the
error-fallback scalar is not cached — the second resolve call repeats the
failing remote query (two calls total, not zero further calls). -/
theorem C2_resolved_key_idempotent_counterexample :
    resolveColumnValue simpleCacheCfg envC2cx ("123", "c1", 1) {} =
        some (Value.str "", { remoteCalls := 1 }) ∧
      (resolveColumnValue simpleCacheCfg envC2cx ("123", "c1", 1)
          { remoteCalls := 1 }).map (fun p => p.2.remoteCalls) = some 2 ∧
      (2 : Nat) ≠ 1 := by
  refine ⟨?_, ?_, by decide⟩
  · with_unfolding_all rfl
  · with_unfolding_all rfl

/-!
## C7 — what makes the formula language reject an input
-/

/-- C7.  The recursive-descent pass accepts a call to a function of any
name whatsoever — the name is never consulted once a parenthesised
argument list follows, so an unknown function name cannot cause a
failure (shown both symbolically over tokens and end-to-end for the
unknown name `BLORP`); failures do occur, with a positioned message, on
an unclosed parenthesis and on an unexpected token. -/
theorem C7_failure_conditions :
    (∀ (name : String) (fuel p1 p2 p3 p4 : Nat),
        parseExpression (fuel + 3) 0
            [Tok.function name p1, Tok.lparen p2, Tok.rparen p3, Tok.eof p4] =
          .ok (Node.functionCall name [], [Tok.eof p4])) ∧
      parseFormula "BLORP(1)" =
        .ok (Node.functionCall "BLORP" [Node.literal (JSVal.num 1) "number"]) ∧
      parseFormula "(1" = .error "Expected \x27)\x27. Got EOF at position 2" ∧
      parseFormula "1 + )" = .error "Unexpected token: RPAREN ())" := by
  refine ⟨?_, ?_, ?_, ?_⟩
  · intro name fuel p1 p2 p3 p4
    rfl
  · with_unfolding_all rfl
  · rfl
  · rfl

/-- Counterexample to C7 as specified: the parser does not fail on every
unbalanced-parenthesis input — a surplus closing parenthesis after a
complete expression is silently ignored. -/
theorem C7_failure_conditions_counterexample :
    parseFormula "1)" = .ok (Node.literal (JSVal.num 1) "number") := by
  with_unfolding_all rfl

/-!
## C1 — cycles: machinery
-/



/-- A successful association lookup exhibits a list member. -/
theorem alookup_mem {α β : Type} [DecidableEq α] {k : α} {v : β} :
    ∀ {l : List (α × β)}, alookup k l = some v → (k, v) ∈ l := by
  intro l
  induction l with
  | nil => intro h; cases h
  | cons p rest ih =>
    obtain ⟨k2, w⟩ := p
    intro h
    simp only [alookup] at h
    by_cases he : k2 = k
    · rw [if_pos he] at h
      cases h
      subst he
      exact List.mem_cons_self _ _
    · rw [if_neg he] at h
      exact List.mem_cons_of_mem _ (ih h)

/-- The insertion-built columns map only returns members of the column
list. -/
theorem colsMapLookup_mem_aux (c : String) :
    ∀ (cols : List Column) (acc : Option Column) (col : Column),
      cols.foldl (fun acc col => if col.id = c then some col else acc) acc =
        some col →
      acc = some col ∨ col ∈ cols := by
  intro cols
  induction cols with
  | nil => intro acc col h; exact Or.inl h
  | cons d rest ih =>
    intro acc col h
    rw [List.foldl_cons] at h
    rcases ih _ col h with h2 | h2
    · by_cases he : d.id = c
      · rw [if_pos he] at h2
        cases h2
        exact Or.inr (List.mem_cons_self _ _)
      · rw [if_neg he] at h2
        exact Or.inl h2
    · exact Or.inr (List.mem_cons_of_mem _ h2)

theorem colsMapLookup_mem {c : String} {cols : List Column} {col : Column}
    (h : colsMapLookup c cols = some col) : col ∈ cols := by
  rcases colsMapLookup_mem_aux c cols none col h with h2 | h2
  · cases h2
  · exact h2

/-- A column of a served board is among the environment's schema
columns. -/
theorem mem_envSchemaColumns {env : Env} {b : String} {cols : List Column}
    {col : Column} (henv : alookup b env.schemas = some (.ok cols))
    (hcol : col ∈ cols) : col ∈ envSchemaColumns env := by
  rw [envSchemaColumns, List.mem_bind]
  exact ⟨(b, .ok cols), alookup_mem henv, hcol⟩

/-- A formula dependency of a served column is a reachable column id. -/
theorem formula_dep_mem_envCols {env : Env} {col : Column} {f d : String}
    (hcolmem : col ∈ envSchemaColumns env) (hf : col.settings.formula = some f)
    (hd : d ∈ extractColumnIds f) : d ∈ envCols env := by
  rw [envCols, List.mem_bind]
  refine ⟨col, hcolmem, ?_⟩
  rw [List.mem_append]
  exact Or.inl (by rw [hf]; simpa using hd)

/-- The mirror target of a served column is a reachable column id. -/
theorem mirror_target_mem_envCols {env : Env} {col : Column}
    {t : LinkedColumnTarget} {rest : List LinkedColumnTarget}
    (hcolmem : col ∈ envSchemaColumns env)
    (hdlc : col.settings.displayed_linked_columns = t :: rest) :
    t.column_ids.headD "undefined" ∈ envCols env := by
  rw [envCols, List.mem_bind]
  refine ⟨col, hcolmem, ?_⟩
  rw [List.mem_append]
  exact Or.inr (by rw [hdlc]; simp)

/-- A linked board of a deep-mirror payload is a reachable board id. -/
theorem mirror_board_mem {env : Env} {i : Int} {colId : String}
    {md : MirrorData} {it : MirroredItem}
    (hmd : alookup (i, colId) env.mirrorDeep = some md)
    (hit : it ∈ md.mirrored_items) : it.linked_board_id ∈ envBoards env := by
  rw [envBoards, List.mem_bind]
  exact ⟨((i, colId), md), alookup_mem hmd, List.mem_map_of_mem _ hit⟩

/-- A parseable linked item of a deep-mirror payload is a reachable item
id. -/
theorem mirror_item_mem {env : Env} {i : Int} {colId : String}
    {md : MirrorData} {it : MirroredItem} {li : LinkedItem} {n : Int}
    (hmd : alookup (i, colId) env.mirrorDeep = some md)
    (hit : it ∈ md.mirrored_items) (hli : it.linked_item = some li)
    (hn : jsParseInt li.id = some n) : n ∈ envItems env := by
  rw [envItems, List.mem_bind]
  refine ⟨((i, colId), md), alookup_mem hmd, ?_⟩
  rw [List.mem_filterMap]
  exact ⟨it, hit, by rw [hli]; simpa using hn⟩

/-- Membership in the reachable key space, componentwise. -/
theorem mem_keySpace {env : Env} {k0 k : ResolutionKey} :
    k ∈ keySpace env k0 ↔
      (k.1 ∈ envBoards env ∨ k.1 = k0.1) ∧
      (k.2.1 ∈ envCols env ∨ k.2.1 = k0.2.1) ∧
      (k.2.2 ∈ envItems env ∨ k.2.2 = k0.2.2) := by
  obtain ⟨b, c, i⟩ := k
  simp only [keySpace, Finset.mem_product, Finset.mem_union, Finset.mem_singleton,
    List.mem_toFinset]

/-- The column fetch preserves the schema invariant. -/
theorem getColumn_ok (env : Env) (b c : String) (st : St)
    (hst : schemaOK env st) : schemaOK env (getColumn env b c st).2 := by
  simp only [getColumn]
  rcases h : alookup b st.schemaCache with _ | cols
  · rcases h2 : alookup b env.schemas with _ | ex
    · exact hst
    · rcases ex with e | cols
      · exact hst
      · intro b2 cols2 hh
        simp only [alookup] at hh
        by_cases he : b = b2
        · rw [if_pos he] at hh
          cases hh
          subst he
          exact h2
        · rw [if_neg he] at hh
          exact hst _ _ hh
  · exact hst

/-- A column served by the fetch comes from a successfully served board of
the environment. -/
theorem getColumn_some_spec (env : Env) (b c : String) (st : St) (col : Column)
    (hst : schemaOK env st) (h : (getColumn env b c st).1 = some col) :
    ∃ cols, alookup b env.schemas = some (.ok cols) ∧
      colsMapLookup c cols = some col := by
  simp only [getColumn] at h
  rcases hsc : alookup b st.schemaCache with _ | cols
  · rw [hsc] at h
    rcases h2 : alookup b env.schemas with _ | ex
    · rw [h2] at h
      cases h
    · rcases ex with e | cols
      · rw [h2] at h
        cases h
      · rw [h2] at h
        exact ⟨cols, rfl, h⟩
  · rw [hsc] at h
    exact ⟨cols, hst b cols hsc, h⟩

/-- The numeric re-fetch only counts a remote call. -/
theorem fetchNumericValue_snd (env : Env) (i : Int) (c : String) (st : St) :
    (fetchNumericValue env i c st).2 =
      { st with remoteCalls := st.remoteCalls + 1 } := by
  simp only [fetchNumericValue]
  repeat' split
  all_goals rfl

/-- Dependency fan-out: when the oracle is total on the key set, resolving
a list of keys from the set settles and preserves the invariant. -/
theorem resolveDeps_total (env : Env) (S : Finset ResolutionKey)
    (recur : ResolutionKey → St → Option (Value × St))
    (hrec : RecurTotal env S recur) :
    ∀ (keys : List ResolutionKey), (∀ k ∈ keys, k ∈ S) →
      ∀ st, schemaOK env st →
      ∃ pairs st', resolveDeps recur keys st = some (pairs, st') ∧
        schemaOK env st' := by
  intro keys
  induction keys with
  | nil => exact fun _ st hst => ⟨[], st, rfl, hst⟩
  | cons k rest ih =>
    intro hks st hst
    obtain ⟨v, st1, hr, hst1⟩ := hrec k (hks k (by simp)) st hst
    obtain ⟨pairs, st2, hrs, hst2⟩ :=
      ih (fun k2 h2 => hks k2 (List.mem_cons_of_mem _ h2)) st1 hst1
    exact ⟨(k, v) :: pairs, st2, by simp only [resolveDeps, hr, hrs], hst2⟩

/-- Totality of the mirror recursion fallback: every branch settles, and
the linked-item recursion stays inside the key set. -/
theorem handleMirrorFallback_total (env : Env) (S : Finset ResolutionKey)
    (recur : ResolutionKey → St → Option (Value × St))
    (col : Column) (aggFunc : String) (items : List MirroredItem)
    (hrec : RecurTotal env S recur)
    (hkeys : ∀ it ∈ items, ∀ li n, it.linked_item = some li →
      jsParseInt li.id = some n →
      ∀ t rest, col.settings.displayed_linked_columns = t :: rest →
        (it.linked_board_id, t.column_ids.headD "undefined", n) ∈ S) :
    ∀ st, schemaOK env st →
      ∃ v st', handleMirrorFallback env recur col aggFunc items st =
        some (v, st') ∧ schemaOK env st' := by
  intro st hst
  simp only [handleMirrorFallback]
  by_cases h0 : items = []
  · rw [if_pos h0]
    exact ⟨_, _, rfl, hst⟩
  · rw [if_neg h0]
    split
    · exact ⟨_, _, rfl, hst⟩
    · rcases hdlc : col.settings.displayed_linked_columns with _ | ⟨t, rest⟩
      · exact ⟨_, _, rfl, hst⟩
      · simp only []
        have hmem : ∀ k ∈ (items.filterMap fun it =>
            match it.linked_item with
            | some li =>
              match jsParseInt li.id with
              | some n =>
                if it.linked_board_id ≠ "" ∧ n ≠ 0 then
                  some (it.linked_board_id, n)
                else none
              | none => none
            | none => none).map
            (fun p => (p.1, t.column_ids.headD "undefined", p.2)), k ∈ S := by
          intro k hkm
          rw [List.mem_map] at hkm
          obtain ⟨p, hp, rfl⟩ := hkm
          rw [List.mem_filterMap] at hp
          obtain ⟨it, hit, hpe⟩ := hp
          rcases hli : it.linked_item with _ | li
          · rw [hli] at hpe
            cases hpe
          · rw [hli] at hpe
            simp only [] at hpe
            rcases hn : jsParseInt li.id with _ | n
            · rw [hn] at hpe
              cases hpe
            · rw [hn] at hpe
              simp only [] at hpe
              split at hpe
              · cases hpe
                exact hkeys it hit li n hli hn t rest hdlc
              · cases hpe
        obtain ⟨pairs, st1, hrd, hst1⟩ := resolveDeps_total env S recur hrec _ hmem st hst
        rw [hrd]
        simp only []
        by_cases hv1 : (pairs.map Prod.snd).filter (fun v => v ≠ Value.str "") = []
        · rw [if_pos hv1]
          exact ⟨_, _, rfl, hst1⟩
        · rw [if_neg hv1]
          by_cases hv2 : (((pairs.map Prod.snd).filter
              (fun v => v ≠ Value.str "")).all fun v =>
                match v with
                | Value.num _ => true
                | Value.str _ => false) = true
          · rw [if_pos hv2]
            exact ⟨_, _, rfl, hst1⟩
          · rw [if_neg hv2]
            exact ⟨_, _, rfl, hst1⟩

/-- Totality of the formula handler under the plain schema cache: the
coordinator is off, and the dependency fan-out stays inside the key
set. -/
theorem handleFormula_total (env : Env) (S : Finset ResolutionKey)
    (recur : ResolutionKey → St → Option (Value × St))
    (b : String) (col : Column) (i : Int)
    (hrec : RecurTotal env S recur)
    (hdeps : ∀ d ∈ extractColumnIds (col.settings.formula.getD ""),
      (b, d, i) ∈ S) :
    ∀ st, schemaOK env st →
      ∃ v st', handleFormula schemaCacheCfg env recur b col i st =
        some (v, st') ∧ schemaOK env st' := by
  intro st hst
  rcases hf : col.settings.formula with _ | f
  · exact ⟨Value.num 0, st, by simp only [handleFormula, hf], hst⟩
  · simp only [handleFormula, hf]
    by_cases hne : f = ""
    · rw [if_pos hne]
      exact ⟨_, st, rfl, hst⟩
    · rw [if_neg hne]
      by_cases hd0 : extractColumnIds f = []
      · rw [if_pos hd0]
        exact ⟨_, st, rfl, hst⟩
      · rw [if_neg hd0]
        rw [if_neg (show ¬(schemaCacheCfg.enhanced &&
            decide ((extractColumnIds f).length > 1) &&
            decide ((analyzeFormulaDependencies
              (extractColumnIds f)).simpleCount > 0)) = true by
          simp [schemaCacheCfg])]
        obtain ⟨pairs, st1, hrd, hst1⟩ := resolveDeps_total env S recur hrec
          ((extractColumnIds f).map fun d => (b, d, i))
          (by
            intro k hkm
            rw [List.mem_map] at hkm
            obtain ⟨d, hd, rfl⟩ := hkm
            have := hdeps d (by rw [hf]; simpa using hd)
            exact this)
          st hst
        rw [hrd]
        exact ⟨_, st1, rfl, hst1⟩

/-- Totality of the mirror handler: the fast path settles directly, and
both fallback entries stay inside the key space. -/
theorem handleMirror_total (env : Env) (k0 : ResolutionKey)
    (recur : ResolutionKey → St → Option (Value × St))
    (col : Column) (i : Int)
    (hrec : RecurTotal env (keySpace env k0) recur)
    (hcolmem : col ∈ envSchemaColumns env) :
    ∀ st, schemaOK env st →
      ∃ v st', handleMirror env recur col i st = some (v, st') ∧
        schemaOK env st' := by
  intro st hst
  have hfb : ∀ (aggFunc : String) (md : MirrorData),
      alookup (i, col.id) env.mirrorDeep = some md →
      ∀ s, schemaOK env s →
      ∃ v s', handleMirrorFallback env recur col aggFunc md.mirrored_items s =
        some (v, s') ∧ schemaOK env s' := by
    intro aggFunc md hmd s hs
    refine handleMirrorFallback_total env (keySpace env k0) recur col aggFunc
      md.mirrored_items hrec ?_ s hs
    intro it hit li n hli hn t rest hdlc
    exact mem_keySpace.mpr ⟨Or.inl (mirror_board_mem hmd hit),
      Or.inl (mirror_target_mem_envCols hcolmem hdlc),
      Or.inl (mirror_item_mem hmd hit hli hn)⟩
  simp only [handleMirror, fetchMirrorDeep]
  rcases hmd : alookup (i, col.id) env.mirrorDeep with _ | md
  · simp only [Option.getD_none]
    exact ⟨_, _, rfl, hst⟩
  · simp only [Option.getD_some]
    rcases hdv : md.display_value with _ | d
    · exact hfb _ md hmd _ hst
    · simp only []
      by_cases hun : d ≠ "" ∧ d ≠ "null"
      · rw [if_pos hun]
        by_cases hl : isNumericListStr d = true
        · rw [if_pos hl]
          exact ⟨_, _, rfl, hst⟩
        · rw [if_neg hl]
          rcases hq : jsNumberStr d with _ | q
          · exact ⟨_, _, rfl, hst⟩
          · exact ⟨_, _, rfl, hst⟩
      · rw [if_neg hun]
        exact hfb _ md hmd _ hst

/-- Totality of the internal resolution under the plain schema cache on
any key of the reachable key space. -/
theorem resolveInternal_total (env : Env) (k0 : ResolutionKey)
    (recur : ResolutionKey → St → Option (Value × St))
    (k : ResolutionKey) (hk : k ∈ keySpace env k0)
    (hrec : RecurTotal env (keySpace env k0) recur) :
    ∀ st, schemaOK env st →
      ∃ v st', resolveInternal schemaCacheCfg env recur k st = some (v, st') ∧
        schemaOK env st' := by
  obtain ⟨b, c, i⟩ := k
  intro st hst
  have hst1 : schemaOK env (getColumn env b c st).2 := getColumn_ok env b c st hst
  rcases hg : (getColumn env b c st).1 with _ | col
  · exact ⟨Value.str "", (getColumn env b c st).2,
      by simp only [resolveInternal, hg], hst1⟩
  · obtain ⟨cols, henv, hcml⟩ := getColumn_some_spec env b c st col hst hg
    have hcolmem : col ∈ envSchemaColumns env :=
      mem_envSchemaColumns henv (colsMapLookup_mem hcml)
    have hbS := (mem_keySpace.mp hk).1
    have hiS := (mem_keySpace.mp hk).2.2
    have hstP : schemaOK env (fetchDisplayValue env i c (getColumn env b c st).2).2 := by
      rw [fetchDisplayValue_snd]
      exact hst1
    simp only [resolveInternal, hg]
    by_cases hm : col.type = "mirror"
    · rw [if_pos hm]
      obtain ⟨v, st2, hh, hst2⟩ :=
        handleMirror_total env k0 recur col i hrec hcolmem (getColumn env b c st).2 hst1
      rw [hh]
      exact ⟨v, _, rfl, hst2⟩
    · by_cases hfm : col.type = "formula"
      · rw [if_neg hm, if_pos hfm]
        have hful := handleFormula_total env (keySpace env k0) recur b col i hrec
          (by
            intro d hd
            rcases hfo : col.settings.formula with _ | f0
            · rw [hfo] at hd
              simp only [Option.getD_none] at hd
              exact absurd hd (by rw [show extractColumnIds "" = [] from rfl]; simp)
            · rw [hfo] at hd
              simp only [Option.getD_some] at hd
              exact mem_keySpace.mpr
                ⟨hbS, Or.inl (formula_dep_mem_envCols hcolmem hfo hd), hiS⟩)
        by_cases hss : (match col.settings.formula with
            | some f =>
              if f = "" then false
              else (analyzeFormulaDependencies (extractColumnIds f)).allComplex
            | none => false) = true
        · rw [if_pos hss]
          obtain ⟨v, st2, hh, hst2⟩ := hful (getColumn env b c st).2 hst1
          rw [hh]
          exact ⟨v, _, rfl, hst2⟩
        · rw [if_neg hss]
          rcases hpr : (fetchDisplayValue env i c (getColumn env b c st).2).1 with _ | v0
          · obtain ⟨v, st2, hh, hst2⟩ := hful _ hstP
            rw [hh]
            exact ⟨v, _, rfl, hst2⟩
          · simp only []
            by_cases hn : isNullishDV (some v0) = true
            · rw [if_pos hn]
              obtain ⟨v, st2, hh, hst2⟩ := hful _ hstP
              rw [hh]
              exact ⟨v, _, rfl, hst2⟩
            · rw [if_neg hn]
              rcases v0 with q | s
              · exact ⟨_, _, rfl, hstP⟩
              · simp only []
                cases hsn : isStrictNumeral s
                · exact ⟨_, _, rfl, hstP⟩
                · exact ⟨_, _, rfl, hstP⟩
      · rw [if_neg hm, if_neg hfm]
        have hstN : schemaOK env
            (fetchNumericValue env i c
              (fetchDisplayValue env i c (getColumn env b c st).2).2).2 := by
          rw [fetchNumericValue_snd]
          exact hstP
        rcases hpr : (fetchDisplayValue env i c (getColumn env b c st).2).1 with _ | v0
        · by_cases hnum : col.type = "numbers"
          · rw [if_pos hnum]
            exact ⟨_, _, rfl, hstN⟩
          · rw [if_neg hnum]
            exact ⟨_, _, rfl, hstP⟩
        · simp only []
          by_cases hn : isNullishDV (some v0) = true
          · rw [if_pos hn]
            by_cases hnum : col.type = "numbers"
            · rw [if_pos hnum]
              exact ⟨_, _, rfl, hstN⟩
            · rw [if_neg hnum]
              exact ⟨_, _, rfl, hstP⟩
          · rw [if_neg hn]
            rcases v0 with q | s
            · exact ⟨_, _, rfl, hstP⟩
            · simp only []
              cases hsn : isStrictNumeral s
              · exact ⟨_, _, rfl, hstP⟩
              · exact ⟨_, _, rfl, hstP⟩

/-- Fuel sufficiency under the plain schema cache: with more fuel than
unvisited keys remain in the reachable key space, resolution settles and
preserves the schema invariant. -/
theorem resolveFuel_total (env : Env) (k0 : ResolutionKey) :
    ∀ (fuel : Nat) (k : ResolutionKey) (visited : Finset ResolutionKey) (st : St),
      k ∈ keySpace env k0 → visited ⊆ keySpace env k0 → schemaOK env st →
      (keySpace env k0).card < fuel + visited.card →
      ∃ v st', resolveFuel schemaCacheCfg env fuel k visited st = some (v, st') ∧
        schemaOK env st' := by
  intro fuel
  induction fuel with
  | zero =>
    intro k visited st hk hvis hst hcard
    have := Finset.card_le_card hvis
    omega
  | succ n ih =>
    intro k visited st hk hvis hst hcard
    rw [resolveFuel]
    rw [show (if schemaCacheCfg.enhanced then alookup k st.valueCache else none) =
      (none : Option Value) from rfl]
    simp only []
    rw [if_neg (fun h => absurd h.1 (by decide))]
    by_cases hkv : k ∈ visited
    · rw [if_pos hkv]
      exact ⟨_, st, rfl, hst⟩
    · rw [if_neg hkv]
      have hrec : RecurTotal env (keySpace env k0)
          (fun k2 s => resolveFuel schemaCacheCfg env n k2 (insert k visited) s) := by
        intro k2 hk2 s hs
        refine ih k2 (insert k visited) s hk2
          (Finset.insert_subset_iff.mpr ⟨hk, hvis⟩) hs ?_
        rw [Finset.card_insert_of_not_mem hkv]
        omega
      obtain ⟨v, st3, hri, hst3⟩ := resolveInternal_total env k0 _ k hk hrec
        (if schemaCacheCfg.enhanced then { st with pending := k :: st.pending } else st)
        hst
      rw [hri]
      exact ⟨v, _, rfl, hst3⟩


/-- C1.  Cycle handling as implemented: (1) under the plain schema cache
every resolve call terminates with a scalar, from any session state whose
schema cache is environment-consistent — in particular on cyclic
reference chains; (2) re-entering a key already on the visited stack
returns the numeral `0` unconditionally, whatever the enclosing context;
(3) under the enhanced session cache the in-flight check precedes the
cycle check and a key already pending makes the resolution await its own
promise — it never settles (`none`). -/
theorem C1_cycle_resolution :
    (∀ (env : Env) (k : ResolutionKey) (st : St),
        schemaOK env st →
        ∃ v st', resolveColumnValue schemaCacheCfg env k st = some (v, st')) ∧
    (∀ (cfg : Cfg) (env : Env) (fuel : Nat) (k : ResolutionKey)
        (visited : Finset ResolutionKey) (st : St),
        (if cfg.enhanced then alookup k st.valueCache else none) = none →
        ¬(cfg.enhanced ∧ k ∈ st.pending) →
        k ∈ visited →
        resolveFuel cfg env (fuel + 1) k visited st = some (Value.num 0, st)) ∧
    (∀ (env : Env) (fuel : Nat) (k : ResolutionKey)
        (visited : Finset ResolutionKey) (st : St),
        alookup k st.valueCache = none →
        k ∈ st.pending →
        resolveFuel simpleCacheCfg env fuel k visited st = none) := by
  refine ⟨?_, ?_, ?_⟩
  · intro env k st hst
    obtain ⟨v, st', h, _⟩ := resolveFuel_total env k ((keySpace env k).card + 1) k ∅ st
      (by simp [mem_keySpace]) (Finset.empty_subset _) hst (by simp)
    exact ⟨v, st', h⟩
  · intro cfg env fuel k visited st hvc hp hkv
    rw [resolveFuel, hvc, if_neg hp, if_pos hkv]
  · intro env fuel k visited st hvc hp
    cases fuel with
    | zero => rfl
    | succ n =>
      rw [resolveFuel]
      rw [show (if simpleCacheCfg.enhanced then alookup k st.valueCache else none) =
        alookup k st.valueCache from rfl]
      rw [hvc, if_pos ⟨rfl, hp⟩]

/-- Witness for C1: the cyclic environment terminates under the plain
cache; a visited key re-enters to `0` even in a string-concatenation
context; a pending key deadlocks under the enhanced cache. -/
theorem C1_cycle_resolution_witness :
    (∃ v st', resolveColumnValue schemaCacheCfg envC1 ("123", "f_a", 100) {} =
      some (v, st')) ∧
    resolveFuel simpleCacheCfg envC1 1 ("123", "f_a", 100)
        {("123", "f_a", 100)} {} = some (Value.num 0, {}) ∧
    resolveFuel simpleCacheCfg envC1 5 ("123", "f_a", 100) ∅
        { pending := [("123", "f_a", 100)] } = none := by
  refine ⟨?_, ?_, ?_⟩
  · exact C1_cycle_resolution.1 envC1 ("123", "f_a", 100) {}
      (fun b cols h => by simp [alookup] at h)
  · exact C1_cycle_resolution.2.1 simpleCacheCfg envC1 0 ("123", "f_a", 100)
      {("123", "f_a", 100)} {} rfl (by simp [simpleCacheCfg]) (by simp)
  · exact C1_cycle_resolution.2.2 envC1 5 ("123", "f_a", 100) ∅
      { pending := [("123", "f_a", 100)] } rfl (by simp)

/-- Counterexample to C1 as specified: in the string-concatenation cycle
the re-entry value is the numeral `0`, not the empty string — the basic
cache resolves the chain to `ZZ0` where the spec's context-dependent
break value would give `ZZ` — and under the enhanced session cache the
same chain never settles at all. -/
theorem C1_cycle_resolution_counterexample :
    (resolveColumnValue schemaCacheCfg envC1 ("123", "f_a", 100) {}).map
        (fun p => p.1) = some (Value.str "ZZ0") ∧
      Value.str "ZZ0" ≠ Value.str "ZZ" ∧
      resolveColumnValue simpleCacheCfg envC1 ("123", "f_a", 100) {} = none := by
  refine ⟨?_, by decide, ?_⟩
  · with_unfolding_all rfl
  · with_unfolding_all rfl

end WorkflowToolkit
